import Mathlib

/-!
Verification of the ITOP quiz/exam backend against its design specification.

The Python sources are embedded shallowly:
* strings are `List Char` (`Str`); Python's `str.lower`, `str.strip`,
  `string.punctuation` removal and whitespace collapsing are modelled
  character-by-character on the ASCII ranges the data uses;
* `difflib.SequenceMatcher.ratio` is modelled by the same dynamic
  programming ("longest matching block", first maximum in scan order,
  recursive split) that difflib performs; difflib's autojunk heuristic,
  which only activates on strings of 200 or more characters, is omitted;
* the OpenAI remote grading call of `evaluate_answer` (a remote service
  that can fail, in which case the code falls through to the lexical
  stage) is an `Option AdvResult` parameter: `none` models "disabled or
  failed", `some r` models a reply the service returned;
* `random.sample`, `random.shuffle` and the shuffled category order are
  function parameters constrained by hypotheses (`SampleOK`, permutation)
  that state exactly the contract of the Python primitives;
* repository (SQLAlchemy) queries that can raise are modelled in
  `Except RepoError`.
-/

/-- Python strings, modelled as lists of characters. -/
abbrev Str := List Char

/-- ASCII lower-casing, as `str.lower` acts on the ASCII letters used by the data. -/
def pyLower (c : Char) : Char :=
  if 'A' ≤ c ∧ c ≤ 'Z' then Char.ofNat (c.toNat + 32) else c

/-- Membership in Python's `string.punctuation` (ASCII 33-47, 58-64, 91-96, 123-126). -/
def isPunct (c : Char) : Bool :=
  let n := c.toNat
  (33 ≤ n && n ≤ 47) || (58 ≤ n && n ≤ 64) || (91 ≤ n && n ≤ 96) || (123 ≤ n && n ≤ 126)

/-- ASCII whitespace as matched by Python's `\s` and stripped by `str.strip`. -/
def pySpace (c : Char) : Bool :=
  c = ' ' || c = '\t' || c = '\n' || c = '\r' || c = '\x0b' || c = '\x0c'

/-- Python `str.strip()`: drop leading and trailing whitespace. -/
def pyStrip (s : Str) : Str :=
  ((s.dropWhile pySpace).reverse.dropWhile pySpace).reverse

/-- Python `re.split` on a one-character class: split at every separator, keeping empty fields. -/
def splitPred (p : Char → Bool) : Str → List Str
  | [] => [[]]
  | c :: cs =>
    if p c then [] :: splitPred p cs
    else
      match splitPred p cs with
      | [] => [[c]]
      | f :: r => (c :: f) :: r

/-- Python `str.split()` with no argument: maximal non-whitespace runs. -/
def pyWords (s : Str) : List Str :=
  (splitPred pySpace s).filter (fun w => w ≠ [])

/-- Join a list of words with single spaces. -/
def joinSpace (ws : List Str) : Str :=
  (ws.intersperse [' ']).flatten

/-- `answer_comparison.preprocess_text`: lower-case, delete punctuation,
collapse whitespace runs to single spaces and strip the ends. -/
def preprocess_text (s : Str) : Str :=
  joinSpace (pyWords ((s.map pyLower).filter (fun c => !isPunct c)))

/-- Python `example.split('\n')` (empty lines kept). -/
def splitLines (s : Str) : List Str :=
  splitPred (fun c => c = '\n') s

/-- Python `re.split(r'[,，]', s)`: split on ASCII or fullwidth comma. -/
def splitCommas (s : Str) : List Str :=
  splitPred (fun c => c = ',' || c = '，') s

/-- ASCII upper-case letter, as matched by the `[A-Z]` character class. -/
def isUpperA (c : Char) : Bool := 'A' ≤ c && c ≤ 'Z'

/-- Python `re.search(r'[A-Z]{2,}', s)` as a Boolean: two adjacent upper-case letters occur. -/
def hasUpper2 : Str → Bool
  | a :: b :: rest => (isUpperA a && isUpperA b) || hasUpper2 (b :: rest)
  | _ => false

/-- ASCII digit, as matched by `\d` on the ASCII data. -/
def isDigitA (c : Char) : Bool := '0' ≤ c && c ≤ '9'

/-- `pat` is a prefix of `s`. -/
def strHasPrefix : Str → Str → Bool
  | [], _ => true
  | _ :: _, [] => false
  | p :: ps, c :: cs => p = c && strHasPrefix ps cs

/-- Python's substring operator `pat in s`. -/
def strContains (pat : Str) : Str → Bool
  | [] => strHasPrefix pat []
  | c :: cs => strHasPrefix pat (c :: cs) || strContains pat cs

/-- The check `"영문 약어" in question or "영문약어" in question`. -/
def asksEnglishAbbrev (q : Str) : Bool :=
  strContains ("영문 약어".data) q || strContains ("영문약어".data) q

/-- Python `re.match(r'(\d+)\.\s*(.*)', option.strip())` followed by
`option_text.strip()`: leading digits, a dot, then the stripped rest. -/
def parseOption (line : Str) : Option (Str × Str) :=
  let t := pyStrip line
  let ds := t.takeWhile isDigitA
  if ds = [] then none
  else
    match t.dropWhile isDigitA with
    | '.' :: rest => some (ds, pyStrip rest)
    | _ => none

/-!
`difflib.SequenceMatcher` (as used with `autojunk` inactive: every string
compared by the grading code is far below the 200-character activation
threshold, and on identical strings the heuristic never changes the result).
`lcsuf a b i j` is the length of the longest chain of equal characters
ending at positions `i` of `a` and `j` of `b` — the value difflib's
`find_longest_match` dynamic programming computes for each pair.
-/
def lcsuf (a b : Str) : Nat → Nat → Nat
  | 0, j =>
    if 0 < a.length && j < b.length && (a.getD 0 ' ' == b.getD j ' ') then 1 else 0
  | i + 1, 0 =>
    if i + 1 < a.length && 0 < b.length && (a.getD (i + 1) ' ' == b.getD 0 ' ') then 1 else 0
  | i + 1, j + 1 =>
    if i + 1 < a.length && j + 1 < b.length && (a.getD (i + 1) ' ' == b.getD (j + 1) ' ') then
      lcsuf a b i j + 1
    else 0

/-- All index pairs `(i, j)` with `i < n`, `j < m`, in difflib's scan order. -/
def allPairs (n m : Nat) : List (Nat × Nat) :=
  (List.range n).flatMap (fun i => (List.range m).map (fun j => (i, j)))

/-- One step of the `find_longest_match` scan: replace the current best
block `(besti, bestj, bestsize)` only on a strictly longer chain. -/
def bmStep (a b : Str) (st : Nat × Nat × Nat) (p : Nat × Nat) : Nat × Nat × Nat :=
  let k := lcsuf a b p.1 p.2
  if st.2.2 < k then (p.1 + 1 - k, p.2 + 1 - k, k) else st

/-- `find_longest_match` over the whole strings: the first maximal block in scan order. -/
def bestMatch (a b : Str) : Nat × Nat × Nat :=
  (allPairs a.length b.length).foldl (bmStep a b) (0, 0, 0)

/-- Total matched characters of `get_matching_blocks`: take the longest
block, recurse on the parts left and right of it.  The fuel argument
`a.length + b.length` strictly dominates the recursion depth (each
recursive call removes at least the matched block from both strings), so
the fuelled recursion computes exactly difflib's total. -/
def matchTotalAux : Nat → Str → Str → Nat
  | 0, _, _ => 0
  | fuel + 1, a, b =>
    let t := bestMatch a b
    if t.2.2 = 0 then 0
    else
      matchTotalAux fuel (a.take t.1) (b.take t.2.1) + t.2.2 +
        matchTotalAux fuel (a.drop (t.1 + t.2.2)) (b.drop (t.2.1 + t.2.2))

/-- Sum of the sizes of difflib's matching blocks for `a` and `b`. -/
def matchTotal (a b : Str) : Nat :=
  matchTotalAux (a.length + b.length) a b

/-- `SequenceMatcher(None, a, b).ratio()`: `2*M / (len(a)+len(b))`, and 1.0
for two empty strings. -/
def ratioQ (a b : Str) : ℚ :=
  if a.length + b.length = 0 then 1
  else 2 * (matchTotal a b : ℚ) / ((a.length : ℚ) + (b.length : ℚ))

/-- The question data handed to the grading engine
(`{"question": ..., "answer": ..., "example": ...}`; the `answer` key is
always present at the call sites modelled here). -/
structure QData where
  question : Str
  answer : Str
  example_ : Option Str
deriving DecidableEq

/-- A grading verdict: the result dictionary of the grading functions.
Keys that a given return site omits are `none` / `[]`. -/
structure Verdict where
  is_correct : Bool
  score : ℚ
  feedback : Str
  missing_points : List Str
  incorrect_points : List Str
  correct_answer : Option Str
  example_ : Option Str
deriving DecidableEq

/-- A reply of the remote OpenAI grading call, after JSON parsing:
`score` is the raw 0-100 number the service returned. -/
structure AdvResult where
  score : ℚ
  is_correct : Bool
  missing_points : List Str
  incorrect_points : List Str
  feedback : Str
deriving DecidableEq

/-- Python truthiness of the optional `example` string (`None` and `""` are falsy). -/
def truthyOpt : Option Str → Bool
  | some s => !s.isEmpty
  | none => false

/-- The expression `example if example else None`. -/
def exOrNone (e : Option Str) : Option Str :=
  if truthyOpt e then e else none

/-- Stage 2 of `evaluate_answer`: walk the example's lines; a line
`"<num>. <text>"` accepts the user when the stored answer equals the
number (or, failing that, normalizes to the text) and the user's answer
equals the number or normalizes to the text. -/
def optionAccept (correct user_answer : Str) : List Str → Bool
  | [] => false
  | line :: rest =>
    match parseOption line with
    | none => optionAccept correct user_answer rest
    | some (num, text) =>
      if correct = num then
        if pyStrip user_answer = num ∨ preprocess_text user_answer = preprocess_text text then
          true
        else optionAccept correct user_answer rest
      else if preprocess_text correct = preprocess_text text then
        if pyStrip user_answer = num ∨ preprocess_text user_answer = preprocess_text text then
          true
        else optionAccept correct user_answer rest
      else optionAccept correct user_answer rest

/-- Stage 3 guard of `evaluate_answer`: the question demands an English
abbreviation, the stored answer has a run of two or more capitals, and the
user's answer has none. -/
def abbrevVeto (question correct user_answer : Str) : Bool :=
  asksEnglishAbbrev question && hasUpper2 correct && !hasUpper2 user_answer

/-- Stage 4 guard of `evaluate_answer`: the stored answer contains a comma
and the comma-split, item-stripped lists match pairwise after normalization. -/
def listMatch (correct user_answer : Str) : Bool :=
  (correct.contains ',' || correct.contains '，') &&
    (let ci := (splitCommas correct).map pyStrip
     let ui := (splitCommas user_answer).map pyStrip
     ci.length == ui.length &&
       (ci.zip ui).all (fun p => preprocess_text p.1 == preprocess_text p.2))

/-- Stage-6 similarity: SequenceMatcher ratio of the normalized strings
(user first, as in the source). -/
def lexSim (user_answer correct : Str) : ℚ :=
  ratioQ (preprocess_text user_answer) (preprocess_text correct)

/-- Stage-6 keyword overlap:
`len(set(correct words) ∩ set(user words)) / len(correct words)`
(`0.0` when the correct answer has no words). -/
def lexKw (user_answer correct : Str) : ℚ :=
  let cw := pyWords (preprocess_text correct)
  let uw := pyWords (preprocess_text user_answer)
  let common := cw.dedup.filter (fun w => uw.contains w)
  if cw.length = 0 then 0 else (common.length : ℚ) / (cw.length : ℚ)

/-- Stage-6 combined score `0.4 * similarity + 0.6 * keyword overlap`. -/
def lexScore (user_answer correct : Str) : ℚ :=
  2 / 5 * lexSim user_answer correct + 3 / 5 * lexKw user_answer correct

/-- Stage 6 of `evaluate_answer`: the lexical fallback verdict, correct at
score `≥ 0.7`, with the three feedback tiers. -/
def lexicalVerdict (user_answer correct : Str) (ex : Option Str) : Verdict :=
  let score := lexScore user_answer correct
  { is_correct := decide ((7 : ℚ) / 10 ≤ score)
    score := score
    feedback :=
      if (7 : ℚ) / 10 ≤ score then "정답입니다!".data
      else if (1 : ℚ) / 2 ≤ score then "부분적으로 정답이지만, 좀 더 정확한 답변이 필요합니다.".data
      else "틀렸습니다. 정답을 다시 확인해보세요.".data
    missing_points := []
    incorrect_points := []
    correct_answer := some correct
    example_ := exOrNone ex }

/-- The verdict for missing input: `"답변 또는 문제 데이터가 없습니다."`. -/
def invalidVerdict : Verdict :=
  { is_correct := false, score := 0, feedback := "답변 또는 문제 데이터가 없습니다.".data
    missing_points := [], incorrect_points := [], correct_answer := none, example_ := none }

/-- The `"정답입니다!"` verdict with score 1.0 returned by stages 1, 2 and 4
(they differ only in the `example` key they attach). -/
def correctVerdict (correct : Str) (ex : Option Str) : Verdict :=
  { is_correct := true, score := 1, feedback := "정답입니다!".data
    missing_points := [], incorrect_points := [], correct_answer := some correct
    example_ := ex }

/-- The stage-3 format-veto verdict: incorrect, score exactly 0.1. -/
def vetoVerdict (correct : Str) (ex : Option Str) : Verdict :=
  { is_correct := false, score := 1 / 10, feedback := "영문 약어로 작성해야 합니다.".data
    missing_points := ["영문 약어 형식".data], incorrect_points := []
    correct_answer := some correct, example_ := exOrNone ex }

/-- The verdict built from a reply of the remote grading service:
score renormalized from 0-100 to 0-1, `correct_answer`/`example` attached. -/
def advVerdict (a : AdvResult) (correct : Str) (ex : Option Str) : Verdict :=
  { is_correct := a.is_correct, score := a.score / 100, feedback := a.feedback
    missing_points := a.missing_points, incorrect_points := a.incorrect_points
    correct_answer := some correct, example_ := exOrNone ex }

/-- `answer_comparison.evaluate_answer`: the grading cascade.  `adv` is the
outcome of the remote OpenAI stage when it is reached: `none` when the
caller disabled it (`use_advanced=False`) or the remote call raised — the
code then falls through to the lexical stage — and `some r` when the
remote call returned a parsed verdict `r`. -/
def evaluate_answer (adv : Option AdvResult) (user_answer : Str) (qd : QData) : Verdict :=
  if user_answer.isEmpty then invalidVerdict
  else
    let correct := pyStrip qd.answer
    if pyStrip user_answer = correct then correctVerdict correct none
    else if truthyOpt qd.example_ && optionAccept correct user_answer (splitLines (qd.example_.getD [])) then
      correctVerdict correct qd.example_
    else if abbrevVeto qd.question correct user_answer then
      vetoVerdict correct qd.example_
    else if listMatch correct user_answer then
      correctVerdict correct (exOrNone qd.example_)
    else
      match adv with
      | some a => advVerdict a correct qd.example_
      | none => lexicalVerdict user_answer correct qd.example_

/-- The local `evaluate_answer` defined at the top of `routers/api.py`
("answer_comparison 모듈 대신 직접 함수 구현"): plain trimmed,
case-insensitive equality, score 1.0 or 0.0.  The dictionary it returns
has no `missing_points`/`incorrect_points` keys; the endpoint reads them
with `.get(..., [])`, so they are modelled as `[]`. -/
def api_evaluate_answer (user_answer : Str) (qd : QData) : Verdict :=
  let correct := qd.answer
  let ic := pyStrip (user_answer.map pyLower) = pyStrip (correct.map pyLower)
  { is_correct := decide ic
    score := if ic then 1 else 0
    feedback := if ic then "정답입니다!".data else "틀렸습니다.".data
    missing_points := [], incorrect_points := []
    correct_answer := some correct
    example_ := qd.example_ }

/-- The nine question categories, i.e. the nine per-category tables. -/
inductive Category
  | os | db | network | algorithm | program | app_test | app_defect | base_sql | hard_sql
deriving DecidableEq, Fintype

/-- `QUESTION_TYPE_MAPPING` in its Python dict iteration order. -/
def categoryList : List Category :=
  [.os, .db, .network, .algorithm, .program, .app_test, .app_defect, .base_sql, .hard_sql]

/-- The string key of a category in `QUESTION_TYPE_MAPPING`. -/
def categoryName : Category → Str
  | .os => "os".data
  | .db => "db".data
  | .network => "network".data
  | .algorithm => "algorithm".data
  | .program => "program".data
  | .app_test => "app_test".data
  | .app_defect => "app_defect".data
  | .base_sql => "base_sql".data
  | .hard_sql => "hard_sql".data

/-- `category in QUESTION_TYPE_MAPPING` plus the lookup itself. -/
def categoryOfName (s : Str) : Option Category :=
  categoryList.find? (fun c => categoryName c = s)

/-- A row of one of the nine structurally identical question tables. -/
structure StoredQuestion where
  id : Str
  question : Str
  answer : Str
  example_ : Option Str
  difficulty : Int
  keywords : Option Str
deriving DecidableEq

/-- The database contents: rows of each category table, in table order. -/
abbrev Store := Category → List StoredQuestion

/-- `question_id.split('-')[0] if '-' in question_id else None`, then the
`category in QUESTION_TYPE_MAPPING` check (an absent or empty or unknown
prefix falls back to scanning all tables). -/
def idPrefixCategory (qid : Str) : Option Category :=
  if qid.contains '-' then categoryOfName (qid.takeWhile (fun c => c ≠ '-'))
  else none

/-- The question lookup of `evaluate_user_answer` (and `get_question`):
query the prefix-named table when the prefix names one, else scan every
table in mapping order; `none` is the 404 case. -/
def findQuestion (store : Store) (qid : Str) : Option StoredQuestion :=
  match idPrefixCategory qid with
  | some c => (store c).find? (fun q => q.id = qid)
  | none => categoryList.findSome? (fun c => (store c).find? (fun q => q.id = qid))

/-- Python's `round` (banker's rounding) on the exact values produced here
(multiples of `1/100` times 100 are integers, where every rounding rule
agrees), as used in `round(score * 100) / 100`. -/
def roundTwo (q : ℚ) : ℚ := (round (q * 100) : ℚ) / 100

/-- The `POST /api/evaluate` handler `evaluate_user_answer`: resolve the
question, grade with the router-local `api_evaluate_answer`, round the
score to two decimals.  `none` models the 404 error response. -/
def evaluate_user_answer (store : Store) (qid user_answer : Str) : Option Verdict :=
  (findQuestion store qid).map (fun q =>
    let ev := api_evaluate_answer user_answer
      { question := q.question, answer := q.answer, example_ := q.example_ }
    { ev with score := roundTwo ev.score })

/-- The contract of `random.sample(l, k)` for `k ≤ len(l)`: `k` elements,
all drawn from `l`, pairwise distinct positions (hence a `Nodup` result
whenever `l` is `Nodup`). -/
def SampleOK {α : Type} (sample : List α → Nat → List α) : Prop :=
  ∀ l k, k ≤ l.length →
    (sample l k).length = k ∧ (sample l k) ⊆ l ∧ (l.Nodup → (sample l k).Nodup)

/-- The contract of `random.shuffle`: a permutation in place. -/
def ShuffleOK {α : Type} (shuffle : List α → List α) : Prop :=
  ∀ l, (shuffle l).Perm l

/-- Python `int()` on the non-negative ratio products used here
(truncation towards zero = floor on non-negative values). -/
def pyInt (q : ℚ) : Nat := (⌊q⌋ : Int).toNat

/-- The per-category block repeated in `create_custom_test`: fetch all ids,
sample `k` of them when enough are available (else take the whole table),
and query the rows whose id was selected. -/
def pickQuestions (sample : List Str → Nat → List Str) (qs : List StoredQuestion)
    (k : Nat) : List StoredQuestion :=
  let ids := qs.map (fun q => q.id)
  if k ≤ ids.length then
    let sel := sample ids k
    qs.filter (fun q => sel.contains q.id)
  else qs

/-- `TestConfigRequest`: the custom-test quota configuration. -/
structure TestConfig where
  os_count : Nat
  network_count : Nat
  db_count : Nat
  sql_count : Nat
  basic_sql_ratio : ℚ
  program_count : Nat
  app_count : Nat
  app_test_ratio : ℚ
deriving DecidableEq

/-- A repository (SQLAlchemy) failure raised by a query. -/
inductive RepoError
  | queryFailed
deriving DecidableEq

/-- A fallible database: each category table read can raise. -/
abbrev StoreE := Category → Except RepoError (List StoredQuestion)

/-- One category fetch of `create_custom_test` (ids query + row query). -/
def fetchPick (db : StoreE) (sample : List Str → Nat → List Str) (c : Category)
    (k : Nat) : Except RepoError (List StoredQuestion) := do
  let qs ← db c
  pure (pickQuestions sample qs k)

/-- The body of `create_custom_test` (inside its `try`): per-category
quota sampling in source order — os, network, db, basic SQL, hard SQL,
program, app-test, app-defect — with the `int(count * ratio)` splits,
then one final shuffle. -/
def create_custom_test_core (db : StoreE) (sample : List Str → Nat → List Str)
    (shuffle : List StoredQuestion → List StoredQuestion) (cfg : TestConfig) :
    Except RepoError (List StoredQuestion) := do
  let osQ ← if 0 < cfg.os_count then fetchPick db sample .os cfg.os_count else pure []
  let netQ ← if 0 < cfg.network_count then fetchPick db sample .network cfg.network_count else pure []
  let dbQ ← if 0 < cfg.db_count then fetchPick db sample .db cfg.db_count else pure []
  let basicCount := pyInt ((cfg.sql_count : ℚ) * cfg.basic_sql_ratio)
  let hardCount := cfg.sql_count - basicCount
  let basicQ ← if 0 < cfg.sql_count ∧ 0 < basicCount then fetchPick db sample .base_sql basicCount else pure []
  let hardQ ← if 0 < cfg.sql_count ∧ 0 < hardCount then fetchPick db sample .hard_sql hardCount else pure []
  let progQ ← if 0 < cfg.program_count then fetchPick db sample .program cfg.program_count else pure []
  let appTestCount := pyInt ((cfg.app_count : ℚ) * cfg.app_test_ratio)
  let appDefectCount := cfg.app_count - appTestCount
  let appTestQ ← if 0 < cfg.app_count ∧ 0 < appTestCount then fetchPick db sample .app_test appTestCount else pure []
  let appDefectQ ← if 0 < cfg.app_count ∧ 0 < appDefectCount then fetchPick db sample .app_defect appDefectCount else pure []
  pure (shuffle (osQ ++ netQ ++ dbQ ++ basicQ ++ hardQ ++ progQ ++ appTestQ ++ appDefectQ))

/-- `create_custom_test` with its `except` clause: a repository error
anywhere in the body yields the empty list. -/
def create_custom_test (db : StoreE) (sample : List Str → Nat → List Str)
    (shuffle : List StoredQuestion → List StoredQuestion) (cfg : TestConfig) :
    List StoredQuestion :=
  match create_custom_test_core db sample shuffle cfg with
  | .ok l => l
  | .error _ => []

/-- The fixed configuration of `create_standard_test`. -/
def standardConfig : TestConfig :=
  { os_count := 3, network_count := 3, db_count := 3, sql_count := 4
    basic_sql_ratio := 1 / 2, program_count := 6, app_count := 1
    app_test_ratio := 1 / 2 }

/-- `GET /api/standard-test`: `create_custom_test` on `standardConfig`. -/
def create_standard_test (db : StoreE) (sample : List Str → Nat → List Str)
    (shuffle : List StoredQuestion → List StoredQuestion) : List StoredQuestion :=
  create_custom_test db sample shuffle standardConfig

/-- A `user_wrong_answers` row (timestamps are irrelevant to the claims
settled here and are not modelled). -/
structure WrongAnswerRow where
  user_id : Str
  question_id : Str
  question_category : Str
  user_answer : Str
  keywords : Option Str
  attempt_count : Nat
deriving DecidableEq

/-- Add one occurrence of keyword `k` to the frequency table, preserving
first-insertion order (Python dict semantics). -/
def bumpKey (m : List (Str × Nat)) (k : Str) : List (Str × Nat) :=
  match m with
  | [] => [(k, 1)]
  | (k', v) :: rest => if k' = k then (k', v + 1) :: rest else (k', v) :: bumpKey rest k

/-- Keyword frequency over a user's wrong-answer rows: for each row with a
truthy `keywords` string, split on ASCII commas, strip each piece, count
the non-empty ones. -/
def keywordFrequency (rows : List WrongAnswerRow) : List (Str × Nat) :=
  rows.foldl
    (fun m row =>
      match row.keywords with
      | none => m
      | some ks =>
        if ks.isEmpty then m
        else
          ((splitPred (fun c => c = ',') ks).map pyStrip).foldl
            (fun m' kw => if kw = [] then m' else bumpKey m' kw) m)
    []

/-- The SQL `keywords LIKE '%kw%'` filter (NULL keywords never match). -/
def likeKeyword (ks : Option Str) (kw : Str) : Bool :=
  match ks with
  | some s => strContains kw s
  | none => false

/-- Stage 3 of `create_personalized_test`: when any keyword was collected,
rank keywords by weight (descending, Python's stable sort), and for every
category and keyword fetch up to `max(1, int(total * ratio * weight * 2))`
rows whose keyword column contains the keyword. -/
def keywordStage (db : StoreE) (freq : List (Str × Nat)) (total : Nat) (ratio : ℚ) :
    Except RepoError (List StoredQuestion) :=
  match freq with
  | [] => pure []
  | _ =>
    let totalFreq : Nat := (freq.map (fun p => p.2)).sum
    let weights : List (Str × ℚ) := freq.map (fun p => (p.1, (p.2 : ℚ) / (totalFreq : ℚ)))
    let ranked := weights.mergeSort (fun x y => y.2 ≤ x.2)
    categoryList.foldlM
      (fun acc c => do
        let qs ← db c
        pure (ranked.foldl
          (fun acc2 kw =>
            let lim := Nat.max 1 (pyInt ((total : ℚ) * ratio * kw.2 * 2))
            acc2 ++ (qs.filter (fun q => likeKeyword q.keywords kw.1)).take lim)
          acc))
      []

/-- Stage 5 of `create_personalized_test`: walk the shuffled category
list; for each category take `min(per, remaining)` rows not already
selected (sampling when more are available), bookkeeping selected ids and
the remaining count, stopping when nothing remains. -/
def fillLoop (db : StoreE) (sampleQ : List StoredQuestion → Nat → List StoredQuestion)
    (per : Nat) :
    List Category → List StoredQuestion × List Str × Nat →
    Except RepoError (List StoredQuestion × List Str × Nat)
  | [], st => pure st
  | c :: cs, (res, sel, rem) =>
    if rem = 0 then pure (res, sel, rem)
    else do
      let qs ← db c
      let rq := qs.filter (fun q => !sel.contains q.id)
      if rq.isEmpty then fillLoop db sampleQ per cs (res, sel, rem)
      else
        let cc := Nat.min per rem
        let chosen := if cc < rq.length then sampleQ rq cc else rq
        fillLoop db sampleQ per cs
          (res ++ chosen, sel ++ chosen.map (fun q => q.id), rem - chosen.length)

/-- Stage 7 of `create_personalized_test`: keep the first occurrence of
each id while fewer than `total` rows have been kept. -/
def dedupTruncGo (total : Nat) : List StoredQuestion → List Str → Nat → List StoredQuestion
  | [], _, _ => []
  | q :: qs, seen, n =>
    if !seen.contains q.id && decide (n < total) then
      q :: dedupTruncGo total qs (q.id :: seen) (n + 1)
    else dedupTruncGo total qs seen n

/-- Stage 7 entry point. -/
def dedupTrunc (total : Nat) (l : List StoredQuestion) : List StoredQuestion :=
  dedupTruncGo total l [] 0

/-- The body of `create_personalized_test` (inside its `try`): collect the
wrong-answer keyword frequencies, run the keyword stage, cap the
keyword-sourced share at `int(total * wrong_ratio)`, fill the remainder
per category (`max(1, remaining // len(categories))` each, over the
shuffled category order `catOrder`), shuffle, deduplicate and truncate. -/
def personalizedCore (db : StoreE) (rowsE : Except RepoError (List WrongAnswerRow))
    (catOrder : List Category)
    (sampleQ : List StoredQuestion → Nat → List StoredQuestion)
    (shuffle : List StoredQuestion → List StoredQuestion)
    (wrong_ratio : ℚ) (total_questions : Nat) :
    Except RepoError (List StoredQuestion) := do
  let rows ← rowsE
  let freq := keywordFrequency rows
  let kq ← keywordStage db freq total_questions wrong_ratio
  let wrongCount := Nat.min kq.length (pyInt ((total_questions : ℚ) * wrong_ratio))
  let base := kq.take wrongCount
  let sel0 := base.map (fun q => q.id)
  let rem0 := total_questions - wrongCount
  let st ←
    if 0 < rem0 then
      fillLoop db sampleQ (Nat.max 1 (rem0 / catOrder.length)) catOrder (base, sel0, rem0)
    else pure (base, sel0, rem0)
  pure (dedupTrunc total_questions (shuffle st.1))

/-- HTTP error responses surfaced by the personalized-test endpoint. -/
structure HttpError where
  status : Nat
deriving DecidableEq

/-- `GET /api/users/{id}/personalized-test` with its `except` clause: any
exception in the body is re-raised as an HTTP 500 error — it does NOT
return an empty list. -/
def create_personalized_test (db : StoreE) (rowsE : Except RepoError (List WrongAnswerRow))
    (catOrder : List Category)
    (sampleQ : List StoredQuestion → Nat → List StoredQuestion)
    (shuffle : List StoredQuestion → List StoredQuestion)
    (wrong_ratio : ℚ) (total_questions : Nat) :
    Except HttpError (List StoredQuestion) :=
  match personalizedCore db rowsE catOrder sampleQ shuffle wrong_ratio total_questions with
  | .ok l => .ok l
  | .error _ => .error { status := 500 }

/-- The wrong-answer recording block of `submit_test` (lines 573-598): the
first row matching `(user_id, question_id)` has its `attempt_count`
incremented and its `user_answer` overwritten; absent a match, a fresh row
with `attempt_count = 1` is inserted. -/
def recordMiss (rows : List WrongAnswerRow) (uid qid cat ans : Str)
    (kws : Option Str) : List WrongAnswerRow :=
  match rows with
  | [] =>
    [{ user_id := uid, question_id := qid, question_category := cat
       user_answer := ans, keywords := kws, attempt_count := 1 }]
  | r :: rest =>
    if r.user_id = uid ∧ r.question_id = qid then
      { r with attempt_count := r.attempt_count + 1, user_answer := ans } :: rest
    else r :: recordMiss rest uid qid cat ans kws

/-- Number of rows recorded for a given `(user, question)` pair. -/
def pairCount (rows : List WrongAnswerRow) (uid qid : Str) : Nat :=
  rows.countP (fun r => decide (r.user_id = uid) && decide (r.question_id = qid))

set_option maxRecDepth 16000

theorem lcsuf_le_left (a b : Str) : ∀ i j, lcsuf a b i j ≤ i + 1 := by
  intro i
  induction i with
  | zero =>
    intro j
    simp only [lcsuf]
    split <;> omega
  | succ i ih =>
    intro j
    match j with
    | 0 =>
      simp only [lcsuf]
      split <;> omega
    | j + 1 =>
      simp only [lcsuf]
      split
      · have := ih j
        omega
      · omega

theorem lcsuf_diag (l : Str) : ∀ i, i < l.length → lcsuf l l i i = i + 1 := by
  intro i
  induction i with
  | zero =>
    intro h
    simp [lcsuf, h]
  | succ i ih =>
    intro h
    have hi : i < l.length := by omega
    simp [lcsuf, h, ih hi]

theorem lcsuf_le_right (a b : Str) : ∀ i j, lcsuf a b i j ≤ j + 1 := by
  intro i
  induction i with
  | zero =>
    intro j
    simp only [lcsuf]
    split <;> omega
  | succ i ih =>
    intro j
    match j with
    | 0 =>
      simp only [lcsuf]
      split <;> omega
    | j + 1 =>
      simp only [lcsuf]
      split
      · have := ih j
        omega
      · omega

theorem foldl_bmStep_bound (a b : Str) (c : Nat) :
    ∀ (ps : List (Nat × Nat)) (st : Nat × Nat × Nat),
      (∀ p ∈ ps, lcsuf a b p.1 p.2 ≤ c) → st.2.2 ≤ c →
      ((ps.foldl (bmStep a b) st)).2.2 ≤ c := by
  intro ps
  induction ps with
  | nil => intro st _ h; simpa using h
  | cons p ps ih =>
    intro st hall hst
    simp only [List.foldl_cons]
    apply ih
    · intro q hq
      exact hall q (List.mem_cons_of_mem _ hq)
    · have hp := hall p (List.mem_cons_self _ _)
      simp only [bmStep]
      split
      · exact hp
      · exact hst

theorem allPairs_succ_succ (m : Nat) :
    allPairs (m + 1) (m + 1) =
      ((List.range m).flatMap (fun i => (List.range (m + 1)).map (fun j => (i, j))) ++
        (List.range m).map (fun j => (m, j))) ++ [(m, m)] := by
  unfold allPairs
  rw [List.range_succ, List.flatMap_append]
  simp [List.range_succ]

theorem bestMatch_diag (l : Str) (h : l ≠ []) : bestMatch l l = (0, 0, l.length) := by
  obtain ⟨m, hm⟩ : ∃ m, l.length = m + 1 := by
    cases l with
    | nil => simp at h
    | cons a t => exact ⟨t.length, rfl⟩
  unfold bestMatch
  rw [hm, allPairs_succ_succ, List.foldl_append]
  have hmid :
      ((((List.range m).flatMap (fun i => (List.range (m + 1)).map (fun j => (i, j))) ++
        (List.range m).map (fun j => (m, j))).foldl (bmStep l l) (0, 0, 0))).2.2 ≤ m := by
    apply foldl_bmStep_bound
    · intro p hp
      rcases List.mem_append.1 hp with hA | hB
      · simp only [List.mem_flatMap, List.mem_map, List.mem_range] at hA
        obtain ⟨i, hi, j, _, rfl⟩ := hA
        show lcsuf l l i j ≤ m
        have := lcsuf_le_left l l i j
        omega
      · simp only [List.mem_map, List.mem_range] at hB
        obtain ⟨j, hj, rfl⟩ := hB
        show lcsuf l l m j ≤ m
        have := lcsuf_le_right l l m j
        omega
    · show (0 : Nat) ≤ m
      omega
  have hdiag : lcsuf l l m m = m + 1 := lcsuf_diag l m (by omega)
  simp only [List.foldl_cons, List.foldl_nil, bmStep, hdiag]
  rw [if_pos (by omega)]
  simp

theorem matchTotalAux_nil : ∀ fuel, matchTotalAux fuel [] [] = 0 := by
  intro fuel
  cases fuel with
  | zero => rfl
  | succ f => rfl

theorem matchTotal_diag (l : Str) : matchTotal l l = l.length := by
  cases l with
  | nil => rfl
  | cons a t =>
    have hne : (a :: t : Str) ≠ [] := by simp
    have hb := bestMatch_diag (a :: t) hne
    show matchTotalAux ((a :: t).length + (a :: t).length) (a :: t) (a :: t) = (a :: t).length
    have hlen : (a :: t).length + (a :: t).length = (t.length + t.length + 1) + 1 := by
      simp
      omega
    rw [hlen]
    simp only [matchTotalAux, hb]
    rw [if_neg (by simp)]
    have hnil : ∀ fuel (x y : Str), x = [] → y = [] → matchTotalAux fuel x y = 0 := by
      intro fuel x y hx hy
      rw [hx, hy, matchTotalAux_nil]
    rw [hnil _ _ _ (by simp) (by simp), hnil _ _ _ (by simp) (by simp)]
    simp [show bestMatch ([] : Str) ([] : Str) = (0, 0, 0) from rfl]

theorem ratioQ_diag (l : Str) : ratioQ l l = 1 := by
  unfold ratioQ
  split
  · rfl
  · rename_i h
    rw [matchTotal_diag]
    have hl : (0 : ℚ) < (l.length : ℚ) := by
      have : 0 < l.length := by omega
      exact_mod_cast this
    field_simp
    ring

theorem evaluate_answer_invalid (adv : Option AdvResult) (qd : QData) :
    evaluate_answer adv [] qd = invalidVerdict := rfl

theorem evaluate_answer_exact (adv : Option AdvResult) (u : Str) (qd : QData)
    (h0 : u.isEmpty = false) (h1 : pyStrip u = pyStrip qd.answer) :
    evaluate_answer adv u qd = correctVerdict (pyStrip qd.answer) none := by
  simp only [evaluate_answer, h0]
  rw [if_neg (by simp), if_pos h1]

theorem evaluate_answer_option (adv : Option AdvResult) (u : Str) (qd : QData)
    (h0 : u.isEmpty = false) (h1 : ¬ pyStrip u = pyStrip qd.answer)
    (h2 : (truthyOpt qd.example_ &&
      optionAccept (pyStrip qd.answer) u (splitLines (qd.example_.getD []))) = true) :
    evaluate_answer adv u qd = correctVerdict (pyStrip qd.answer) qd.example_ := by
  simp only [evaluate_answer, h0]
  rw [if_neg (by simp), if_neg h1, if_pos h2]

theorem evaluate_answer_veto (adv : Option AdvResult) (u : Str) (qd : QData)
    (h0 : u.isEmpty = false) (h1 : ¬ pyStrip u = pyStrip qd.answer)
    (h2 : ¬ (truthyOpt qd.example_ &&
      optionAccept (pyStrip qd.answer) u (splitLines (qd.example_.getD []))) = true)
    (h3 : abbrevVeto qd.question (pyStrip qd.answer) u = true) :
    evaluate_answer adv u qd = vetoVerdict (pyStrip qd.answer) qd.example_ := by
  simp only [evaluate_answer, h0]
  rw [if_neg (by simp), if_neg h1, if_neg h2, if_pos h3]

theorem evaluate_answer_list (adv : Option AdvResult) (u : Str) (qd : QData)
    (h0 : u.isEmpty = false) (h1 : ¬ pyStrip u = pyStrip qd.answer)
    (h2 : ¬ (truthyOpt qd.example_ &&
      optionAccept (pyStrip qd.answer) u (splitLines (qd.example_.getD []))) = true)
    (h3 : ¬ abbrevVeto qd.question (pyStrip qd.answer) u = true)
    (h4 : listMatch (pyStrip qd.answer) u = true) :
    evaluate_answer adv u qd = correctVerdict (pyStrip qd.answer) (exOrNone qd.example_) := by
  simp only [evaluate_answer, h0]
  rw [if_neg (by simp), if_neg h1, if_neg h2, if_neg h3, if_pos h4]

theorem evaluate_answer_lex (u : Str) (qd : QData)
    (h0 : u.isEmpty = false) (h1 : ¬ pyStrip u = pyStrip qd.answer)
    (h2 : ¬ (truthyOpt qd.example_ &&
      optionAccept (pyStrip qd.answer) u (splitLines (qd.example_.getD []))) = true)
    (h3 : ¬ abbrevVeto qd.question (pyStrip qd.answer) u = true)
    (h4 : ¬ listMatch (pyStrip qd.answer) u = true) :
    evaluate_answer none u qd = lexicalVerdict u (pyStrip qd.answer) qd.example_ := by
  simp only [evaluate_answer, h0]
  rw [if_neg (by simp), if_neg h1, if_neg h2, if_neg h3, if_neg h4]

theorem evaluate_answer_adv (a : AdvResult) (u : Str) (qd : QData)
    (h0 : u.isEmpty = false) (h1 : ¬ pyStrip u = pyStrip qd.answer)
    (h2 : ¬ (truthyOpt qd.example_ &&
      optionAccept (pyStrip qd.answer) u (splitLines (qd.example_.getD []))) = true)
    (h3 : ¬ abbrevVeto qd.question (pyStrip qd.answer) u = true)
    (h4 : ¬ listMatch (pyStrip qd.answer) u = true) :
    evaluate_answer (some a) u qd = advVerdict a (pyStrip qd.answer) qd.example_ := by
  simp only [evaluate_answer, h0]
  rw [if_neg (by simp), if_neg h1, if_neg h2, if_neg h3, if_neg h4]

/-- C2 counterexample: for the question "영문 약어로 쓰시오" with stored
answer "TCP", the user answer "tcp" is equal to the stored answer after
trimming and case-insensitive normalization, yet the cascade's
format-constraint stage rejects it with score 0.1 — so normalized
equality does not imply a correct verdict with score 1.0. -/
theorem c2_counterexample :
    preprocess_text ("tcp".data) =
      preprocess_text (pyStrip ("TCP".data)) ∧
    (evaluate_answer none ("tcp".data)
      { question := "영문 약어로 쓰시오".data, answer := "TCP".data, example_ := none }).is_correct = false ∧
    (evaluate_answer none ("tcp".data)
      { question := "영문 약어로 쓰시오".data, answer := "TCP".data, example_ := none }).score = 1 / 10 := by
  refine ⟨by decide, by decide, ?_⟩
  rw [evaluate_answer_veto none ("tcp".data) _ (by decide) (by decide) (by decide) (by decide)]
  rfl

/-- C2 (amended): if the user's answer equals the stored answer after
trimming and normalization, the abbreviation format veto does not fire,
the remote grading stage is disabled or unavailable, and the normalized
stored answer consists of at least one word with no repeated word, then
grading returns correct with score 1.0. -/
theorem c2_amended_normalized_equal_full_marks (u : Str) (qd : QData)
    (hnorm : preprocess_text u = preprocess_text (pyStrip qd.answer))
    (hveto : abbrevVeto qd.question (pyStrip qd.answer) u = false)
    (hwords : pyWords (preprocess_text (pyStrip qd.answer)) ≠ [])
    (hnodup : (pyWords (preprocess_text (pyStrip qd.answer))).Nodup) :
    (evaluate_answer none u qd).is_correct = true ∧
    (evaluate_answer none u qd).score = 1 := by
  have hu : u ≠ [] := by
    intro h
    subst h
    rw [show preprocess_text ([] : Str) = [] from rfl] at hnorm
    rw [← hnorm] at hwords
    exact hwords rfl
  have h0 : u.isEmpty = false := by
    cases u with
    | nil => exact absurd rfl hu
    | cons a t => rfl
  by_cases h1 : pyStrip u = pyStrip qd.answer
  · rw [evaluate_answer_exact none u qd h0 h1]
    exact ⟨rfl, rfl⟩
  · by_cases h2 : (truthyOpt qd.example_ &&
        optionAccept (pyStrip qd.answer) u (splitLines (qd.example_.getD []))) = true
    · rw [evaluate_answer_option none u qd h0 h1 h2]
      exact ⟨rfl, rfl⟩
    · have h3 : ¬ abbrevVeto qd.question (pyStrip qd.answer) u = true := by
        rw [hveto]
        simp
      by_cases h4 : listMatch (pyStrip qd.answer) u = true
      · rw [evaluate_answer_list none u qd h0 h1 h2 h3 h4]
        exact ⟨rfl, rfl⟩
      · rw [evaluate_answer_lex u qd h0 h1 h2 h3 h4]
        have hsim : lexSim u (pyStrip qd.answer) = 1 := by
          unfold lexSim
          rw [hnorm]
          exact ratioQ_diag _
        have hkw : lexKw u (pyStrip qd.answer) = 1 := by
          simp only [lexKw, hnorm]
          have hd : (pyWords (preprocess_text (pyStrip qd.answer))).dedup =
              pyWords (preprocess_text (pyStrip qd.answer)) := List.Nodup.dedup hnodup
          have hf : (pyWords (preprocess_text (pyStrip qd.answer))).filter
              (fun w => (pyWords (preprocess_text (pyStrip qd.answer))).contains w) =
              pyWords (preprocess_text (pyStrip qd.answer)) := by
            rw [List.filter_eq_self]
            intro w hw
            exact List.elem_iff.mpr hw
          rw [hd, hf]
          have hlen : (pyWords (preprocess_text (pyStrip qd.answer))).length ≠ 0 := by
            intro h
            exact hwords (List.eq_nil_of_length_eq_zero h)
          rw [if_neg hlen]
          have : ((pyWords (preprocess_text (pyStrip qd.answer))).length : ℚ) ≠ 0 := by
            exact_mod_cast hlen
          field_simp
        have hscore : lexScore u (pyStrip qd.answer) = 1 := by
          unfold lexScore
          rw [hsim, hkw]
          norm_num
        constructor
        · show decide ((7 : ℚ) / 10 ≤ lexScore u (pyStrip qd.answer)) = true
          rw [hscore]
          simp only [decide_eq_true_eq]
          norm_num
        · exact hscore

/-- C2 amended-theorem witness: the stored answer "Ab Cd" and the user
answer "ab  cd" are normalization-equal, no veto fires, and grading
returns correct with score 1.0. -/
theorem c2_amended_witness :
    (evaluate_answer none ("ab  cd".data)
      { question := "질문".data, answer := "Ab Cd".data, example_ := none }).is_correct = true ∧
    (evaluate_answer none ("ab  cd".data)
      { question := "질문".data, answer := "Ab Cd".data, example_ := none }).score = 1 :=
  c2_amended_normalized_equal_full_marks ("ab  cd".data)
    { question := "질문".data, answer := "Ab Cd".data, example_ := none }
    (by decide) (by decide) (by decide) (by decide)

/-- C3 (amended, positive part): when the stored answer contains a comma,
the comma-split item lists of answer and user answer have equal length and
match pairwise after normalization, the user answer is non-empty and the
abbreviation veto does not fire, grading returns correct with score 1.0 —
for any state of the remote stage, since the list stage precedes it. -/
theorem c3_amended_ordered_list_match (adv : Option AdvResult) (u : Str) (qd : QData)
    (h0 : u ≠ [])
    (hveto : abbrevVeto qd.question (pyStrip qd.answer) u = false)
    (hcomma : ((pyStrip qd.answer).contains ',' || (pyStrip qd.answer).contains '，') = true)
    (hlen : ((splitCommas (pyStrip qd.answer)).map pyStrip).length =
      ((splitCommas u).map pyStrip).length)
    (hpair : ∀ p ∈ (((splitCommas (pyStrip qd.answer)).map pyStrip).zip
        ((splitCommas u).map pyStrip)), preprocess_text p.1 = preprocess_text p.2) :
    (evaluate_answer adv u qd).is_correct = true ∧
    (evaluate_answer adv u qd).score = 1 := by
  have hzero : u.isEmpty = false := by
    cases u with
    | nil => exact absurd rfl h0
    | cons a t => rfl
  have h4 : listMatch (pyStrip qd.answer) u = true := by
    simp only [listMatch, hcomma, Bool.true_and, Bool.and_eq_true, beq_iff_eq,
      List.all_eq_true]
    refine ⟨hlen, ?_⟩
    intro p hp
    exact hpair p hp
  by_cases h1 : pyStrip u = pyStrip qd.answer
  · rw [evaluate_answer_exact adv u qd hzero h1]
    exact ⟨rfl, rfl⟩
  · by_cases h2 : (truthyOpt qd.example_ &&
        optionAccept (pyStrip qd.answer) u (splitLines (qd.example_.getD []))) = true
    · rw [evaluate_answer_option adv u qd hzero h1 h2]
      exact ⟨rfl, rfl⟩
    · have h3 : ¬ abbrevVeto qd.question (pyStrip qd.answer) u = true := by
        rw [hveto]
        simp
      rw [evaluate_answer_list adv u qd hzero h1 h2 h3 h4]
      exact ⟨rfl, rfl⟩

/-- C3 amended-theorem witness: answer "A, B, C" and user input "A,B,C"
grade correct with score 1.0. -/
theorem c3_amended_witness :
    (evaluate_answer none ("A,B,C".data)
      { question := "다음을 쓰시오".data, answer := "A, B, C".data, example_ := none }).is_correct = true ∧
    (evaluate_answer none ("A,B,C".data)
      { question := "다음을 쓰시오".data, answer := "A, B, C".data, example_ := none }).score = 1 :=
  c3_amended_ordered_list_match none ("A,B,C".data)
    { question := "다음을 쓰시오".data, answer := "A, B, C".data, example_ := none }
    (by decide) (by decide) (by decide) (by decide) (by decide)

/-- C3 counterexample: with stored answer "A, B, C" (no remote service
available), the reordered input "B, A, C" falls past the ordered-list
stage into the lexical fallback and grades CORRECT with score 0.84, and
the shorter input "A, B" likewise grades CORRECT with score 0.7 — the
claim says both must grade incorrect. -/
theorem c3_counterexample :
    (evaluate_answer none ("B, A, C".data)
      { question := "다음을 쓰시오".data, answer := "A, B, C".data, example_ := none }).is_correct = true ∧
    (evaluate_answer none ("B, A, C".data)
      { question := "다음을 쓰시오".data, answer := "A, B, C".data, example_ := none }).score = 21 / 25 ∧
    (evaluate_answer none ("A, B".data)
      { question := "다음을 쓰시오".data, answer := "A, B, C".data, example_ := none }).is_correct = true ∧
    (evaluate_answer none ("A, B".data)
      { question := "다음을 쓰시오".data, answer := "A, B, C".data, example_ := none }).score = 7 / 10 := by
  have e1 := evaluate_answer_lex ("B, A, C".data)
    { question := "다음을 쓰시오".data, answer := "A, B, C".data, example_ := none }
    (by decide) (by decide) (by decide) (by decide) (by decide)
  have e2 := evaluate_answer_lex ("A, B".data)
    { question := "다음을 쓰시오".data, answer := "A, B, C".data, example_ := none }
    (by decide) (by decide) (by decide) (by decide) (by decide)
  have hsim1 : lexSim ("B, A, C".data) (pyStrip ("A, B, C".data)) = 3 / 5 := by
    have hm : matchTotal (preprocess_text ("B, A, C".data))
        (preprocess_text (pyStrip ("A, B, C".data))) = 3 := by decide
    have hl1 : (preprocess_text ("B, A, C".data)).length = 5 := by decide
    have hl2 : (preprocess_text (pyStrip ("A, B, C".data))).length = 5 := by decide
    simp only [lexSim, ratioQ, hm, hl1, hl2]
    norm_num
  have hkw1 : lexKw ("B, A, C".data) (pyStrip ("A, B, C".data)) = 1 := by
    have hcom : (((pyWords (preprocess_text (pyStrip ("A, B, C".data)))).dedup).filter
        (fun w => (pyWords (preprocess_text ("B, A, C".data))).contains w)).length = 3 := by
      decide
    have hlen3 : (pyWords (preprocess_text (pyStrip ("A, B, C".data)))).length = 3 := by decide
    simp only [lexKw, hcom, hlen3]
    norm_num
  have hscore1 : lexScore ("B, A, C".data) (pyStrip ("A, B, C".data)) = 21 / 25 := by
    rw [lexScore, hsim1, hkw1]
    norm_num
  have hsim2 : lexSim ("A, B".data) (pyStrip ("A, B, C".data)) = 3 / 4 := by
    have hm : matchTotal (preprocess_text ("A, B".data))
        (preprocess_text (pyStrip ("A, B, C".data))) = 3 := by decide
    have hl1 : (preprocess_text ("A, B".data)).length = 3 := by decide
    have hl2 : (preprocess_text (pyStrip ("A, B, C".data))).length = 5 := by decide
    simp only [lexSim, ratioQ, hm, hl1, hl2]
    norm_num
  have hkw2 : lexKw ("A, B".data) (pyStrip ("A, B, C".data)) = 2 / 3 := by
    have hcom : (((pyWords (preprocess_text (pyStrip ("A, B, C".data)))).dedup).filter
        (fun w => (pyWords (preprocess_text ("A, B".data))).contains w)).length = 2 := by
      decide
    have hlen3 : (pyWords (preprocess_text (pyStrip ("A, B, C".data)))).length = 3 := by decide
    simp only [lexKw, hcom, hlen3]
    norm_num
  have hscore2 : lexScore ("A, B".data) (pyStrip ("A, B, C".data)) = 7 / 10 := by
    rw [lexScore, hsim2, hkw2]
    norm_num
  refine ⟨?_, ?_, ?_, ?_⟩
  · rw [e1]
    show decide ((7 : ℚ) / 10 ≤ lexScore ("B, A, C".data) (pyStrip ("A, B, C".data))) = true
    rw [hscore1]
    simp only [decide_eq_true_eq]
    norm_num
  · rw [e1]
    exact hscore1
  · rw [e2]
    show decide ((7 : ℚ) / 10 ≤ lexScore ("A, B".data) (pyStrip ("A, B, C".data))) = true
    rw [hscore2]
    simp only [decide_eq_true_eq]
    norm_num
  · rw [e2]
    exact hscore2

theorem hasUpper2_cons (c : Char) (l : Str) (h : hasUpper2 l = true) :
    hasUpper2 (c :: l) = true := by
  cases l with
  | nil => simp [hasUpper2] at h
  | cons b rest =>
    simp only [hasUpper2, Bool.or_eq_true]
    exact Or.inr h

theorem hasUpper2_append_left : ∀ (l₁ l₂ : Str), hasUpper2 l₁ = true →
    hasUpper2 (l₁ ++ l₂) = true
  | [], _, h => by simp [hasUpper2] at h
  | [a], _, h => by simp [hasUpper2] at h
  | a :: b :: rest, l₂, h => by
    simp only [hasUpper2, Bool.or_eq_true] at h
    rcases h with h | h
    · simp only [List.cons_append, hasUpper2, Bool.or_eq_true]
      exact Or.inl h
    · have := hasUpper2_append_left (b :: rest) l₂ h
      simp only [List.cons_append]
      exact hasUpper2_cons a _ (by simpa using this)

theorem hasUpper2_append_right (l₁ l₂ : Str) (h : hasUpper2 l₂ = true) :
    hasUpper2 (l₁ ++ l₂) = true := by
  induction l₁ with
  | nil => simpa using h
  | cons c cs ih => exact hasUpper2_cons c _ ih

theorem hasUpper2_pyStrip_le (u : Str) (h : hasUpper2 (pyStrip u) = true) :
    hasUpper2 u = true := by
  obtain ⟨l₁, hl₁⟩ := List.dropWhile_suffix (l := u) (p := pySpace)
  obtain ⟨l₂, hl₂⟩ :=
    List.dropWhile_suffix (l := (u.dropWhile pySpace).reverse) (p := pySpace)
  have hmid : u.dropWhile pySpace = pyStrip u ++ l₂.reverse := by
    have hr := congrArg List.reverse hl₂
    simpa [pyStrip] using hr.symm
  have h2 : hasUpper2 (u.dropWhile pySpace) = true := by
    rw [hmid]
    exact hasUpper2_append_left _ _ h
  rw [← hl₁]
  exact hasUpper2_append_right l₁ _ h2

/-- C4 (amended): for a question demanding an English abbreviation whose
stored answer has a capital run of length at least 2, a user answer with
no such run that is NOT accepted by the enumerated-option stage receives
the format-veto verdict — incorrect, score exactly 0.1 — identically for
every state of the remote stage (the veto precedes and bypasses it). -/
theorem c4_amended_format_veto (adv : Option AdvResult) (u : Str) (qd : QData)
    (h0 : u ≠ [])
    (ha : asksEnglishAbbrev qd.question = true)
    (hc : hasUpper2 (pyStrip qd.answer) = true)
    (hu2 : hasUpper2 u = false)
    (hopt : ¬ (truthyOpt qd.example_ &&
      optionAccept (pyStrip qd.answer) u (splitLines (qd.example_.getD []))) = true) :
    evaluate_answer adv u qd = vetoVerdict (pyStrip qd.answer) qd.example_ := by
  have hzero : u.isEmpty = false := by
    cases u with
    | nil => exact absurd rfl h0
    | cons a t => rfl
  have h1 : ¬ pyStrip u = pyStrip qd.answer := by
    intro he
    have hup : hasUpper2 (pyStrip u) = true := by rw [he]; exact hc
    have := hasUpper2_pyStrip_le u hup
    rw [hu2] at this
    exact Bool.false_ne_true this
  have h3 : abbrevVeto qd.question (pyStrip qd.answer) u = true := by
    simp [abbrevVeto, ha, hc, hu2]
  exact evaluate_answer_veto adv u qd hzero h1 hopt h3

/-- C4 amended-theorem witness: question "영문 약어로 쓰시오", answer
"TCP", user answer "전송제어프로토콜" (no capital run): the verdict is the
veto verdict, score 0.1. -/
theorem c4_amended_witness :
    evaluate_answer none ("전송제어프로토콜".data)
      { question := "영문 약어로 쓰시오".data, answer := "TCP".data, example_ := none } =
    vetoVerdict (pyStrip ("TCP".data)) none :=
  c4_amended_format_veto none ("전송제어프로토콜".data)
    { question := "영문 약어로 쓰시오".data, answer := "TCP".data, example_ := none }
    (by decide) (by decide) (by decide) (by decide) (by decide)

/-- C4 counterexample: the enumerated-option stage precedes the format
veto, so for the abbreviation-demanding question with example "1. TCP" and
answer "TCP", the user answer "1" contains no capital run yet grades
CORRECT with score 1.0, not 0.1 as the claim requires. -/
theorem c4_counterexample :
    hasUpper2 ("1".data) = false ∧
    (evaluate_answer none ("1".data)
      { question := "영문 약어로 쓰시오".data, answer := "TCP".data
        example_ := some ("1. TCP".data) }).is_correct = true ∧
    (evaluate_answer none ("1".data)
      { question := "영문 약어로 쓰시오".data, answer := "TCP".data
        example_ := some ("1. TCP".data) }).score = 1 := by
  refine ⟨by decide, by decide, ?_⟩
  rw [evaluate_answer_option none ("1".data) _ (by decide) (by decide) (by decide)]
  rfl

theorem optionAccept_of_mem (correct u n text : Str) :
    ∀ (lines : List Str), (∃ line ∈ lines, parseOption line = some (n, text)) →
    (correct = n ∨ preprocess_text correct = preprocess_text text) →
    (pyStrip u = n ∨ preprocess_text u = preprocess_text text) →
    optionAccept correct u lines = true := by
  intro lines
  induction lines with
  | nil =>
    rintro ⟨line, h, _⟩ _ _
    simp at h
  | cons l ls ih =>
    rintro ⟨line, hmem, hparse⟩ hca hua
    rcases List.mem_cons.1 hmem with rfl | hmem'
    · simp only [optionAccept, hparse]
      by_cases hcn : correct = n
      · rw [if_pos hcn, if_pos hua]
      · rw [if_neg hcn]
        have hct : preprocess_text correct = preprocess_text text := hca.resolve_left hcn
        rw [if_pos hct, if_pos hua]
    · have htail := ih ⟨line, hmem', hparse⟩ hca hua
      cases hpl : parseOption l with
      | none => simpa only [optionAccept, hpl] using htail
      | some p =>
        obtain ⟨n', t'⟩ := p
        simp only [optionAccept, hpl]
        by_cases h1 : correct = n'
        · rw [if_pos h1]
          by_cases h2 : pyStrip u = n' ∨ preprocess_text u = preprocess_text t'
          · rw [if_pos h2]
          · rw [if_neg h2]
            exact htail
        · rw [if_neg h1]
          by_cases h3 : preprocess_text correct = preprocess_text t'
          · rw [if_pos h3]
            by_cases h2 : pyStrip u = n' ∨ preprocess_text u = preprocess_text t'
            · rw [if_pos h2]
            · rw [if_neg h2]
              exact htail
          · rw [if_neg h3]
            exact htail

/-- C5: when the example block has a line `"<n>. <text>"` whose number or
normalized text equals the stored answer, a non-empty user answer equal to
the number, or equal to the text after normalization (any case), grades
correct with score 1.0 — for any state of the remote stage. -/
theorem c5_enumerated_option_match (adv : Option AdvResult) (qd : QData)
    (ex n text line u : Str)
    (hex : qd.example_ = some ex) (hexne : ex ≠ [])
    (hline : line ∈ splitLines ex)
    (hparse : parseOption line = some (n, text))
    (hans : pyStrip qd.answer = n ∨
      preprocess_text (pyStrip qd.answer) = preprocess_text text)
    (h0 : u ≠ [])
    (hua : pyStrip u = n ∨ preprocess_text u = preprocess_text text) :
    (evaluate_answer adv u qd).is_correct = true ∧
    (evaluate_answer adv u qd).score = 1 := by
  have hzero : u.isEmpty = false := by
    cases u with
    | nil => exact absurd rfl h0
    | cons a t => rfl
  by_cases h1 : pyStrip u = pyStrip qd.answer
  · rw [evaluate_answer_exact adv u qd hzero h1]
    exact ⟨rfl, rfl⟩
  · have hexe : ex.isEmpty = false := by
      cases ex with
      | nil => exact absurd rfl hexne
      | cons a t => rfl
    have h2 : (truthyOpt qd.example_ &&
        optionAccept (pyStrip qd.answer) u (splitLines (qd.example_.getD []))) = true := by
      rw [hex]
      simp only [truthyOpt, Option.getD_some, hexe, Bool.not_false, Bool.true_and]
      exact optionAccept_of_mem (pyStrip qd.answer) u n text (splitLines ex)
        ⟨line, hline, hparse⟩ hans hua
    rw [evaluate_answer_option adv u qd hzero h1 h2]
    exact ⟨rfl, rfl⟩

/-- C5 witness: stored answer "2", options "1. TCP" / "2. SNMP"; both the
user answers "2" and "Snmp" grade correct with score 1.0. -/
theorem c5_witness :
    ((evaluate_answer none ("2".data)
      { question := "질문".data, answer := "2".data
        example_ := some ("1. TCP\n2. SNMP".data) }).is_correct = true ∧
    (evaluate_answer none ("2".data)
      { question := "질문".data, answer := "2".data
        example_ := some ("1. TCP\n2. SNMP".data) }).score = 1) ∧
    ((evaluate_answer none ("Snmp".data)
      { question := "질문".data, answer := "2".data
        example_ := some ("1. TCP\n2. SNMP".data) }).is_correct = true ∧
    (evaluate_answer none ("Snmp".data)
      { question := "질문".data, answer := "2".data
        example_ := some ("1. TCP\n2. SNMP".data) }).score = 1) :=
  ⟨c5_enumerated_option_match none
      { question := "질문".data, answer := "2".data
        example_ := some ("1. TCP\n2. SNMP".data) }
      ("1. TCP\n2. SNMP".data) ("2".data) ("SNMP".data) ("2. SNMP".data) ("2".data)
      rfl (by decide) (by decide) (by decide) (by decide) (by decide) (by decide),
    c5_enumerated_option_match none
      { question := "질문".data, answer := "2".data
        example_ := some ("1. TCP\n2. SNMP".data) }
      ("1. TCP\n2. SNMP".data) ("2".data) ("SNMP".data) ("2. SNMP".data) ("Snmp".data)
      rfl (by decide) (by decide) (by decide) (by decide) (by decide) (by decide)⟩

/-- C1 counterexample: `/api/evaluate` grades with the router-local
equality check, not the grading engine's cascade.  For the stored network
question with answer "2" and options "1. TCP" / "2. SNMP", the user answer
"snmp" is rejected by the endpoint (`is_correct = false`) while the
§4.1 cascade accepts it at the enumerated-option stage
(`is_correct = true`): the endpoint verdict differs from the cascade
verdict. -/
theorem c1_counterexample :
    ((evaluate_user_answer
      (fun c => if c = Category.network then
        [{ id := "network-1".data, question := "질문".data, answer := "2".data
           example_ := some ("1. TCP\n2. SNMP".data), difficulty := 1, keywords := none }]
        else [])
      ("network-1".data) ("snmp".data)).map Verdict.is_correct = some false) ∧
    (evaluate_answer none ("snmp".data)
      { question := "질문".data, answer := "2".data
        example_ := some ("1. TCP\n2. SNMP".data) }).is_correct = true :=
  ⟨by decide, by decide⟩

/-- C1 (amended): for every stored question the endpoint resolves, the
`/api/evaluate` verdict is the router-local simple check — correct exactly
when the user answer equals the stored answer after lower-casing and
trimming, with score 1.0, else incorrect with score 0.0.  It implements
only the exact-match stage of the §4.1 cascade, not the full cascade. -/
theorem c1_amended_endpoint_is_simple_equality (store : Store) (qid u : Str)
    (q : StoredQuestion) (hfind : findQuestion store qid = some q) :
    ∃ v, evaluate_user_answer store qid u = some v ∧
      v.is_correct = decide (pyStrip (u.map pyLower) = pyStrip (q.answer.map pyLower)) ∧
      v.score =
        (if pyStrip (u.map pyLower) = pyStrip (q.answer.map pyLower) then (1 : ℚ) else 0) := by
  unfold evaluate_user_answer
  rw [hfind]
  refine ⟨_, rfl, rfl, ?_⟩
  show roundTwo (if pyStrip (u.map pyLower) = pyStrip (q.answer.map pyLower)
    then (1 : ℚ) else 0) = _
  by_cases hic : pyStrip (u.map pyLower) = pyStrip (q.answer.map pyLower)
  · rw [if_pos hic]
    unfold roundTwo
    norm_num [round_eq]
  · rw [if_neg hic]
    unfold roundTwo
    norm_num [round_eq]

/-- C1 amended-theorem witness: the stored question above with user answer
" 2 " — accepted by the endpoint with score 1.0. -/
theorem c1_amended_witness :
    ∃ v, evaluate_user_answer
      (fun c => if c = Category.network then
        [{ id := "network-1".data, question := "질문".data, answer := "2".data
           example_ := some ("1. TCP\n2. SNMP".data), difficulty := 1, keywords := none }]
        else [])
      ("network-1".data) (" 2 ".data) = some v ∧
      v.is_correct = decide (pyStrip ((" 2 ".data).map pyLower) =
        pyStrip (("2".data).map pyLower)) ∧
      v.score = (if pyStrip ((" 2 ".data).map pyLower) =
        pyStrip (("2".data).map pyLower) then (1 : ℚ) else 0) :=
  c1_amended_endpoint_is_simple_equality
    (fun c => if c = Category.network then
      [{ id := "network-1".data, question := "질문".data, answer := "2".data
         example_ := some ("1. TCP\n2. SNMP".data), difficulty := 1, keywords := none }]
      else [])
    ("network-1".data) (" 2 ".data)
    { id := "network-1".data, question := "질문".data, answer := "2".data
      example_ := some ("1. TCP\n2. SNMP".data), difficulty := 1, keywords := none }
    (by decide)

theorem pairCount_nil (u q : Str) : pairCount [] u q = 0 := rfl

theorem pairCount_cons (r : WrongAnswerRow) (rows : List WrongAnswerRow) (u q : Str) :
    pairCount (r :: rows) u q =
      pairCount rows u q + (if r.user_id = u ∧ r.question_id = q then 1 else 0) := by
  by_cases h1 : r.user_id = u <;> by_cases h2 : r.question_id = q <;>
    simp [pairCount, List.countP_cons, h1, h2]

theorem pairCount_append (l₁ l₂ : List WrongAnswerRow) (u q : Str) :
    pairCount (l₁ ++ l₂) u q = pairCount l₁ u q + pairCount l₂ u q := by
  simp [pairCount, List.countP_append]

theorem pairCount_eq_zero_no_match (rows : List WrongAnswerRow) (u q : Str)
    (h : pairCount rows u q = 0) :
    ∀ r ∈ rows, ¬(r.user_id = u ∧ r.question_id = q) := by
  intro r hr hmatch
  induction rows with
  | nil => simp at hr
  | cons r0 rest ih =>
    rw [pairCount_cons] at h
    rcases List.mem_cons.1 hr with rfl | hr'
    · rw [if_pos hmatch] at h
      omega
    · exact ih (by omega) hr'

theorem recordMiss_fresh (rows : List WrongAnswerRow) (uid qid cat ans : Str)
    (kws : Option Str) (h : pairCount rows uid qid = 0) :
    recordMiss rows uid qid cat ans kws =
      rows ++ [{ user_id := uid, question_id := qid, question_category := cat
                 user_answer := ans, keywords := kws, attempt_count := 1 }] := by
  induction rows with
  | nil => rfl
  | cons r rest ih =>
    rw [pairCount_cons] at h
    have hnm : ¬(r.user_id = uid ∧ r.question_id = qid) := by
      intro hm
      rw [if_pos hm] at h
      omega
    simp only [recordMiss, if_neg hnm, List.cons_append]
    congr 1
    exact ih (by omega)

theorem recordMiss_update_last (rows : List WrongAnswerRow) (r0 : WrongAnswerRow)
    (uid qid cat ans : Str) (kws : Option Str)
    (h : pairCount rows uid qid = 0)
    (hr0 : r0.user_id = uid ∧ r0.question_id = qid) :
    recordMiss (rows ++ [r0]) uid qid cat ans kws =
      rows ++ [{ r0 with attempt_count := r0.attempt_count + 1, user_answer := ans }] := by
  induction rows with
  | nil => simp [recordMiss, hr0]
  | cons r rest ih =>
    rw [pairCount_cons] at h
    have hnm : ¬(r.user_id = uid ∧ r.question_id = qid) := by
      intro hm
      rw [if_pos hm] at h
      omega
    simp only [List.cons_append, recordMiss, if_neg hnm]
    congr 1
    exact ih (by omega)

theorem recordMiss_other_pair (rows : List WrongAnswerRow) (uid qid cat ans : Str)
    (kws : Option Str) (u' q' : Str) (hne : ¬(uid = u' ∧ qid = q')) :
    pairCount (recordMiss rows uid qid cat ans kws) u' q' = pairCount rows u' q' := by
  induction rows with
  | nil => simp [recordMiss, pairCount_cons, pairCount_nil, hne]
  | cons r rest ih =>
    by_cases hm : r.user_id = uid ∧ r.question_id = qid
    · simp only [recordMiss, if_pos hm]
      rw [pairCount_cons, pairCount_cons]
    · simp only [recordMiss, if_neg hm]
      rw [pairCount_cons, pairCount_cons, ih]

theorem recordMiss_preserves_bound (rows : List WrongAnswerRow) (uid qid cat ans : Str)
    (kws : Option Str) (u' q' : Str) (h : pairCount rows u' q' ≤ 1) :
    pairCount (recordMiss rows uid qid cat ans kws) u' q' ≤ 1 := by
  induction rows with
  | nil =>
    simp only [recordMiss]
    rw [pairCount_cons, pairCount_nil]
    split <;> omega
  | cons r rest ih =>
    rw [pairCount_cons] at h
    by_cases hm : r.user_id = uid ∧ r.question_id = qid
    · simp only [recordMiss, if_pos hm]
      rw [pairCount_cons]
      show pairCount rest u' q' + (if r.user_id = u' ∧ r.question_id = q' then 1 else 0) ≤ 1
      by_cases hp : r.user_id = u' ∧ r.question_id = q'
      · rw [if_pos hp] at h ⊢
        omega
      · rw [if_neg hp] at h ⊢
        omega
    · simp only [recordMiss, if_neg hm]
      rw [pairCount_cons]
      by_cases hp : r.user_id = u' ∧ r.question_id = q'
      · rw [if_pos hp] at h ⊢
        have hrst : pairCount rest u' q' = 0 := by omega
        have hne : ¬(uid = u' ∧ qid = q') := by
          intro he
          exact hm ⟨hp.1.trans he.1.symm, hp.2.trans he.2.symm⟩
        rw [recordMiss_other_pair rest uid qid cat ans kws u' q' hne, hrst]
      · rw [if_neg hp] at h ⊢
        have := ih (by omega)
        omega

/-- C7: recording a miss twice for a pair with no prior row leaves exactly
one row for that pair, with attempt_count = 2; and every miss-recording
operation preserves "at most one row per (user, question) pair". -/
theorem c7_record_miss_upsert :
    (∀ (rows : List WrongAnswerRow) (uid qid cat ans : Str) (kws : Option Str)
      (cat' ans' : Str) (kws' : Option Str),
      pairCount rows uid qid = 0 →
      pairCount (recordMiss (recordMiss rows uid qid cat ans kws)
        uid qid cat' ans' kws') uid qid = 1 ∧
      ∀ r ∈ recordMiss (recordMiss rows uid qid cat ans kws) uid qid cat' ans' kws',
        r.user_id = uid → r.question_id = qid → r.attempt_count = 2) ∧
    (∀ (rows : List WrongAnswerRow) (uid qid cat ans : Str) (kws : Option Str)
      (u' q' : Str), pairCount rows u' q' ≤ 1 →
      pairCount (recordMiss rows uid qid cat ans kws) u' q' ≤ 1) := by
  constructor
  · intro rows uid qid cat ans kws cat' ans' kws' h
    rw [recordMiss_fresh rows uid qid cat ans kws h]
    rw [recordMiss_update_last rows
      { user_id := uid, question_id := qid, question_category := cat
        user_answer := ans, keywords := kws, attempt_count := 1 }
      uid qid cat' ans' kws' h ⟨rfl, rfl⟩]
    constructor
    · rw [pairCount_append, h, pairCount_cons, pairCount_nil]
      rw [if_pos ⟨rfl, rfl⟩]
    · intro r hr hru hrq
      rcases List.mem_append.1 hr with hr' | hr'
      · exact absurd ⟨hru, hrq⟩ (pairCount_eq_zero_no_match rows uid qid h r hr')
      · rcases List.mem_singleton.1 hr' with rfl
        rfl
  · intro rows uid qid cat ans kws u' q' h
    exact recordMiss_preserves_bound rows uid qid cat ans kws u' q' h

/-- C7 witness: recording the miss of question "os-1" by user "u1" twice
on an empty table yields pair-count 1 with attempt_count 2, and one
recording preserves the at-most-one-row bound. -/
theorem c7_witness :
    (pairCount (recordMiss (recordMiss [] ("u1".data) ("os-1".data) ("os".data)
        ("x".data) none) ("u1".data) ("os-1".data) ("os".data) ("y".data) none)
      ("u1".data) ("os-1".data) = 1 ∧
    ∀ r ∈ recordMiss (recordMiss [] ("u1".data) ("os-1".data) ("os".data)
        ("x".data) none) ("u1".data) ("os-1".data) ("os".data) ("y".data) none,
      r.user_id = "u1".data → r.question_id = "os-1".data → r.attempt_count = 2) ∧
    pairCount (recordMiss [] ("u1".data) ("os-1".data) ("os".data) ("x".data) none)
      ("u1".data) ("os-1".data) ≤ 1 :=
  ⟨c7_record_miss_upsert.1 [] ("u1".data) ("os-1".data) ("os".data) ("x".data) none
      ("os".data) ("y".data) none (by decide),
    c7_record_miss_upsert.2 [] ("u1".data) ("os-1".data) ("os".data) ("x".data) none
      ("u1".data) ("os-1".data) (by decide)⟩

theorem except_bind_ok {ε α β : Type} (x : α) (f : α → Except ε β) :
    (Except.ok x >>= f : Except ε β) = f x := rfl

theorem except_pure_bind {ε α β : Type} (x : α) (f : α → Except ε β) :
    (pure x >>= f : Except ε β) = f x := rfl

theorem natMin_zero (n : Nat) : Nat.min 0 n = 0 := by simp [Nat.min_def]

/-- C9: with zero wrong-answer rows, the personalized-test output is the
same for any two wrong_ratio values — every other input (stores, category
order, samplers, total) held fixed. -/
theorem c9_wrong_ratio_independent (db : StoreE) (catOrder : List Category)
    (sampleQ : List StoredQuestion → Nat → List StoredQuestion)
    (shuffle : List StoredQuestion → List StoredQuestion)
    (t : Nat) (r₁ r₂ : ℚ) :
    create_personalized_test db (.ok []) catOrder sampleQ shuffle r₁ t =
    create_personalized_test db (.ok []) catOrder sampleQ shuffle r₂ t := by
  unfold create_personalized_test personalizedCore
  simp only [except_bind_ok, except_pure_bind, keywordFrequency, List.foldl_nil,
    keywordStage, List.length_nil, natMin_zero, List.take_zero, List.map_nil,
    Nat.sub_zero]

/-- C10 (amended): a repository error during QUOTA-mode assembly is caught
and the endpoint returns the empty list; but a repository error during
PERSONALIZED-mode assembly is re-raised as an HTTP 500 error — the
personalized endpoint does not return an empty sequence. -/
theorem c10_amended_error_handling :
    (∀ (db : StoreE) (sample : List Str → Nat → List Str)
      (shuffle : List StoredQuestion → List StoredQuestion) (cfg : TestConfig)
      (e : RepoError), create_custom_test_core db sample shuffle cfg = .error e →
      create_custom_test db sample shuffle cfg = []) ∧
    (∀ (db : StoreE) (rowsE : Except RepoError (List WrongAnswerRow))
      (catOrder : List Category)
      (sampleQ : List StoredQuestion → Nat → List StoredQuestion)
      (shuffle : List StoredQuestion → List StoredQuestion) (r : ℚ) (t : Nat)
      (e : RepoError),
      personalizedCore db rowsE catOrder sampleQ shuffle r t = .error e →
      create_personalized_test db rowsE catOrder sampleQ shuffle r t =
        .error { status := 500 }) := by
  constructor
  · intro db sample shuffle cfg e h
    unfold create_custom_test
    rw [h]
  · intro db rowsE catOrder sampleQ shuffle r t e h
    unfold create_personalized_test
    rw [h]

/-- C10 amended-theorem witness: with every table read failing, the
custom-test endpoint returns `[]` and the personalized endpoint returns
the HTTP 500 error. -/
theorem c10_amended_witness :
    create_custom_test (fun _ => .error .queryFailed) (fun l k => l.take k) id
      standardConfig = [] ∧
    create_personalized_test (fun _ => .error .queryFailed) (.error .queryFailed)
      categoryList (fun l k => l.take k) id (1 / 2) 20 = .error { status := 500 } :=
  ⟨c10_amended_error_handling.1 (fun _ => .error .queryFailed) (fun l k => l.take k) id
      standardConfig .queryFailed rfl,
    c10_amended_error_handling.2 (fun _ => .error .queryFailed) (.error .queryFailed)
      categoryList (fun l k => l.take k) id (1 / 2) 20 .queryFailed rfl⟩

/-- C10 counterexample: when the wrong-answer query fails, the
personalized-test endpoint yields an HTTP 500 error, which is not the
empty-sequence result the claim requires for every assembly mode. -/
theorem c10_counterexample :
    create_personalized_test (fun _ => .error .queryFailed) (.error .queryFailed)
      categoryList (fun l k => l.take k) id (1 / 2) 20 = .error { status := 500 } ∧
    (Except.error { status := 500 } : Except HttpError (List StoredQuestion)) ≠
      .ok [] :=
  ⟨rfl, by simp⟩

theorem contains_eq_false_of_not_mem {x : Str} {l : List Str} (h : x ∉ l) :
    l.contains x = false :=
  Bool.eq_false_iff.mpr (fun hc => h (List.elem_iff.mp hc))

theorem countP_contains_eq_length (ids : List Str) :
    ∀ (sel : List Str), ids.Nodup → sel.Nodup → sel ⊆ ids →
      ids.countP (fun i => sel.contains i) = sel.length := by
  induction ids with
  | nil =>
    intro sel _ _ hsub
    rw [List.subset_nil.1 hsub]
    rfl
  | cons a rest ih =>
    intro sel hids hsel hsub
    rcases List.nodup_cons.1 hids with ⟨ha, hrest⟩
    rw [List.countP_cons]
    by_cases hmem : a ∈ sel
    · have hpa : sel.contains a = true := List.elem_iff.mpr hmem
      rw [hpa, if_pos rfl]
      have hcongr : rest.countP (fun i => sel.contains i) =
          rest.countP (fun i => (sel.erase a).contains i) := by
        apply List.countP_congr
        intro i hi
        have hne : i ≠ a := fun he => ha (he ▸ hi)
        by_cases h : i ∈ sel
        · have h1 : sel.contains i = true := List.elem_iff.mpr h
          have h2 : (sel.erase a).contains i = true :=
            List.elem_iff.mpr ((List.mem_erase_of_ne hne).mpr h)
          rw [h1, h2]
        · have h1 : sel.contains i = false := contains_eq_false_of_not_mem h
          have h2 : (sel.erase a).contains i = false :=
            contains_eq_false_of_not_mem (fun hc => h (List.mem_of_mem_erase hc))
          rw [h1, h2]
      rw [hcongr]
      have hsub' : sel.erase a ⊆ rest := by
        intro x hx
        have hxs : x ∈ sel := List.mem_of_mem_erase hx
        have hxa : x ≠ a := (List.Nodup.mem_erase_iff hsel).1 hx |>.1
        rcases List.mem_cons.1 (hsub hxs) with hxa' | hxr
        · exact absurd hxa' hxa
        · exact hxr
      rw [ih (sel.erase a) hrest (hsel.erase a) hsub']
      have : sel.length = (sel.erase a).length + 1 := by
        rw [List.length_erase_of_mem hmem]
        have : 0 < sel.length := List.length_pos_of_mem hmem
        omega
      omega
    · have hpa : sel.contains a = false := contains_eq_false_of_not_mem hmem
      rw [hpa, if_neg (by simp)]
      have hsub' : sel ⊆ rest := by
        intro x hx
        rcases List.mem_cons.1 (hsub hx) with hxa | hxr
        · exact absurd (hxa ▸ hx) hmem
        · exact hxr
      rw [ih sel hrest hsel hsub']
      omega

theorem pickQuestions_spec (sample : List Str → Nat → List Str)
    (hS : SampleOK sample) (qs : List StoredQuestion) (k : Nat)
    (hnodup : (qs.map (fun q => q.id)).Nodup) (hk : k ≤ qs.length) :
    (pickQuestions sample qs k).length = k ∧ pickQuestions sample qs k ⊆ qs := by
  unfold pickQuestions
  have hlen : k ≤ (qs.map (fun q => q.id)).length := by simpa using hk
  rw [if_pos hlen]
  obtain ⟨hl, hsub, hnd⟩ := hS (qs.map (fun q => q.id)) k hlen
  refine ⟨?_, fun x hx => (List.mem_filter.1 hx).1⟩
  rw [← List.countP_eq_length_filter]
  have hmap : qs.countP
      (fun q => (sample (qs.map (fun q => q.id)) k).contains q.id) =
      (qs.map (fun q => q.id)).countP
        (fun i => (sample (qs.map (fun q => q.id)) k).contains i) := by
    rw [List.countP_map]
    rfl
  rw [hmap, countP_contains_eq_length _ _ hnodup (hnd hnodup) hsub]
  exact hl

/-- C6: with valid samplers and every table holding at least its quota,
the standard test is a permutation of eight per-category blocks of sizes
3 (os), 3 (network), 3 (db), 2 (basic SQL), 2 (hard SQL), 6 (program),
0 (app-test) and 1 (app-defect) — the `int(count*ratio)` splits of the 4
SQL and 1 app questions — and has exactly 20 questions. -/
theorem c6_standard_test_composition (store : Store)
    (sample : List Str → Nat → List Str)
    (shuffle : List StoredQuestion → List StoredQuestion)
    (hS : SampleOK sample) (hSh : ShuffleOK shuffle)
    (hos : 3 ≤ (store .os).length) (hosn : ((store .os).map (fun q => q.id)).Nodup)
    (hnet : 3 ≤ (store .network).length)
    (hnetn : ((store .network).map (fun q => q.id)).Nodup)
    (hdb : 3 ≤ (store .db).length) (hdbn : ((store .db).map (fun q => q.id)).Nodup)
    (hbs : 2 ≤ (store .base_sql).length)
    (hbsn : ((store .base_sql).map (fun q => q.id)).Nodup)
    (hhs : 2 ≤ (store .hard_sql).length)
    (hhsn : ((store .hard_sql).map (fun q => q.id)).Nodup)
    (hpr : 6 ≤ (store .program).length)
    (hprn : ((store .program).map (fun q => q.id)).Nodup)
    (had : 1 ≤ (store .app_defect).length)
    (hadn : ((store .app_defect).map (fun q => q.id)).Nodup) :
    ∃ osQ netQ dbQ bsqlQ hsqlQ progQ atestQ adefQ : List StoredQuestion,
      (create_standard_test (fun c => .ok (store c)) sample shuffle).Perm
        (osQ ++ netQ ++ dbQ ++ bsqlQ ++ hsqlQ ++ progQ ++ atestQ ++ adefQ) ∧
      (create_standard_test (fun c => .ok (store c)) sample shuffle).length = 20 ∧
      osQ.length = 3 ∧ osQ ⊆ store .os ∧
      netQ.length = 3 ∧ netQ ⊆ store .network ∧
      dbQ.length = 3 ∧ dbQ ⊆ store .db ∧
      bsqlQ.length = 2 ∧ bsqlQ ⊆ store .base_sql ∧
      hsqlQ.length = 2 ∧ hsqlQ ⊆ store .hard_sql ∧
      progQ.length = 6 ∧ progQ ⊆ store .program ∧
      atestQ.length = 0 ∧
      adefQ.length = 1 ∧ adefQ ⊆ store .app_defect := by
  have e1 : pyInt (2 : ℚ) = 2 := by
    norm_num [pyInt]
    rfl
  have e2 : pyInt ((1 : ℚ) / 2) = 0 := by norm_num [pyInt]
  have hcore : create_custom_test_core (fun c => .ok (store c)) sample shuffle
      standardConfig =
      .ok (shuffle (pickQuestions sample (store .os) 3 ++
        pickQuestions sample (store .network) 3 ++
        pickQuestions sample (store .db) 3 ++
        pickQuestions sample (store .base_sql) 2 ++
        pickQuestions sample (store .hard_sql) 2 ++
        pickQuestions sample (store .program) 6 ++
        [] ++
        pickQuestions sample (store .app_defect) 1)) := by
    unfold create_custom_test_core
    norm_num [standardConfig, except_bind_ok, except_pure_bind, fetchPick, e1, e2]
  have hres : create_standard_test (fun c => .ok (store c)) sample shuffle =
      shuffle (pickQuestions sample (store .os) 3 ++
        pickQuestions sample (store .network) 3 ++
        pickQuestions sample (store .db) 3 ++
        pickQuestions sample (store .base_sql) 2 ++
        pickQuestions sample (store .hard_sql) 2 ++
        pickQuestions sample (store .program) 6 ++
        [] ++
        pickQuestions sample (store .app_defect) 1) := by
    unfold create_standard_test create_custom_test
    rw [hcore]
  obtain ⟨losQ, sosQ⟩ := pickQuestions_spec sample hS (store .os) 3 hosn hos
  obtain ⟨lnetQ, snetQ⟩ := pickQuestions_spec sample hS (store .network) 3 hnetn hnet
  obtain ⟨ldbQ, sdbQ⟩ := pickQuestions_spec sample hS (store .db) 3 hdbn hdb
  obtain ⟨lbsQ, sbsQ⟩ := pickQuestions_spec sample hS (store .base_sql) 2 hbsn hbs
  obtain ⟨lhsQ, shsQ⟩ := pickQuestions_spec sample hS (store .hard_sql) 2 hhsn hhs
  obtain ⟨lprQ, sprQ⟩ := pickQuestions_spec sample hS (store .program) 6 hprn hpr
  obtain ⟨ladQ, sadQ⟩ := pickQuestions_spec sample hS (store .app_defect) 1 hadn had
  refine ⟨pickQuestions sample (store .os) 3, pickQuestions sample (store .network) 3,
    pickQuestions sample (store .db) 3, pickQuestions sample (store .base_sql) 2,
    pickQuestions sample (store .hard_sql) 2, pickQuestions sample (store .program) 6,
    [], pickQuestions sample (store .app_defect) 1, ?_, ?_, losQ, sosQ, lnetQ, snetQ,
    ldbQ, sdbQ, lbsQ, sbsQ, lhsQ, shsQ, lprQ, sprQ, rfl, ladQ, sadQ⟩
  · rw [hres]
    exact hSh _
  · rw [hres]
    have := (hSh (pickQuestions sample (store .os) 3 ++
      pickQuestions sample (store .network) 3 ++
      pickQuestions sample (store .db) 3 ++
      pickQuestions sample (store .base_sql) 2 ++
      pickQuestions sample (store .hard_sql) 2 ++
      pickQuestions sample (store .program) 6 ++
      [] ++
      pickQuestions sample (store .app_defect) 1)).length_eq
    rw [this]
    simp only [List.length_append, losQ, lnetQ, ldbQ, lbsQ, lhsQ, lprQ, ladQ,
      List.length_nil]

theorem sampleOK_take {α : Type} : SampleOK (fun (l : List α) k => l.take k) := by
  intro l k hk
  refine ⟨?_, List.take_subset _ _, fun hn => hn.sublist (List.take_sublist _ _)⟩
  rw [List.length_take]
  omega

theorem shuffleOK_id {α : Type} : ShuffleOK (fun (l : List α) => l) :=
  fun l => List.Perm.refl l

/-- C6 witness: a database with six questions per table yields a standard
test of exactly 20 questions. -/
theorem c6_witness :
    (create_standard_test
      (fun _ => .ok [
        { id := "q1".data, question := "q".data, answer := "a".data
          example_ := none, difficulty := 1, keywords := none },
        { id := "q2".data, question := "q".data, answer := "a".data
          example_ := none, difficulty := 1, keywords := none },
        { id := "q3".data, question := "q".data, answer := "a".data
          example_ := none, difficulty := 1, keywords := none },
        { id := "q4".data, question := "q".data, answer := "a".data
          example_ := none, difficulty := 1, keywords := none },
        { id := "q5".data, question := "q".data, answer := "a".data
          example_ := none, difficulty := 1, keywords := none },
        { id := "q6".data, question := "q".data, answer := "a".data
          example_ := none, difficulty := 1, keywords := none }])
      (fun l k => l.take k) (fun l => l)).length = 20 := by
  obtain ⟨_, _, _, _, _, _, _, _, _, hlen, _⟩ :=
    c6_standard_test_composition
      (fun _ => [
        { id := "q1".data, question := "q".data, answer := "a".data
          example_ := none, difficulty := 1, keywords := none },
        { id := "q2".data, question := "q".data, answer := "a".data
          example_ := none, difficulty := 1, keywords := none },
        { id := "q3".data, question := "q".data, answer := "a".data
          example_ := none, difficulty := 1, keywords := none },
        { id := "q4".data, question := "q".data, answer := "a".data
          example_ := none, difficulty := 1, keywords := none },
        { id := "q5".data, question := "q".data, answer := "a".data
          example_ := none, difficulty := 1, keywords := none },
        { id := "q6".data, question := "q".data, answer := "a".data
          example_ := none, difficulty := 1, keywords := none }])
      (fun l k => l.take k) (fun l => l) sampleOK_take shuffleOK_id
      (by decide) (by decide) (by decide) (by decide) (by decide) (by decide)
      (by decide) (by decide) (by decide) (by decide) (by decide) (by decide)
      (by decide) (by decide)
  exact hlen

theorem inj_id_of_nodup_map (l : List StoredQuestion)
    (hl : (l.map (fun q => q.id)).Nodup) :
    ∀ x ∈ l, ∀ y ∈ l, x.id = y.id → x = y := by
  intro x hx y hy he
  exact List.inj_on_of_nodup_map hl hx hy he

theorem nodup_map_id_of_subset (l s : List StoredQuestion)
    (hl : (l.map (fun q => q.id)).Nodup) (hs : s.Nodup) (hsub : s ⊆ l) :
    (s.map (fun q => q.id)).Nodup := by
  apply List.Nodup.map_on
  · intro x hx y hy he
    exact inj_id_of_nodup_map l hl x (hsub hx) y (hsub hy) he
  · exact hs

theorem dedupTruncGo_eq_self (t : Nat) :
    ∀ (l : List StoredQuestion) (seen : List Str) (n : Nat),
      (l.map (fun q => q.id)).Nodup → (∀ q ∈ l, q.id ∉ seen) → n + l.length ≤ t →
      dedupTruncGo t l seen n = l := by
  intro l
  induction l with
  | nil => intro seen n _ _ _; rfl
  | cons q qs ih =>
    intro seen n hnd hseen hle
    have hcont : seen.contains q.id = false :=
      contains_eq_false_of_not_mem (hseen q (List.mem_cons_self _ _))
    have hlt : n < t := by
      simp only [List.length_cons] at hle
      omega
    simp only [dedupTruncGo, hcont, Bool.not_false, decide_eq_true hlt, Bool.and_self]
    rw [if_pos trivial]
    rw [List.map_cons, List.nodup_cons] at hnd
    congr 1
    apply ih
    · exact hnd.2
    · intro p hp
      simp only [List.mem_cons]
      push_neg
      constructor
      · intro he
        exact hnd.1 (he ▸ List.mem_map_of_mem (fun q => q.id) hp)
      · exact hseen p (List.mem_cons_of_mem _ hp)
    · simp only [List.length_cons] at hle
      omega

theorem fillLoop_cons_step (store : Store)
    (sampleQ : List StoredQuestion → Nat → List StoredQuestion) (per : Nat)
    (c : Category) (cs : List Category) (res : List StoredQuestion)
    (sel : List Str) (rem : Nat) (hrem : rem ≠ 0)
    (hfil : (store c).filter (fun q => !sel.contains q.id) = store c)
    (hne : (store c).isEmpty = false) :
    fillLoop (fun x => .ok (store x)) sampleQ per (c :: cs) (res, sel, rem) =
      fillLoop (fun x => .ok (store x)) sampleQ per cs
        (res ++ (if Nat.min per rem < (store c).length then
            sampleQ (store c) (Nat.min per rem) else store c),
         sel ++ (if Nat.min per rem < (store c).length then
            sampleQ (store c) (Nat.min per rem) else store c).map (fun q => q.id),
         rem - (if Nat.min per rem < (store c).length then
            sampleQ (store c) (Nat.min per rem) else store c).length) := by
  simp only [fillLoop, if_neg hrem, except_bind_ok, hfil, hne]
  rw [if_neg (by simp)]

theorem fillLoop_ok_spec (store : Store)
    (sampleQ : List StoredQuestion → Nat → List StoredQuestion)
    (hS : SampleOK sampleQ) (per : Nat) (hper : 1 ≤ per) :
    ∀ (cats : List Category) (res : List StoredQuestion) (sel : List Str) (rem : Nat),
      cats.Nodup →
      (∀ c ∈ cats, per ≤ (store c).length ∧
        ((store c).map (fun q => q.id)).Nodup ∧
        (∀ q ∈ store c, q.id ∉ sel) ∧
        (∀ d ∈ cats, c ≠ d → ∀ q ∈ store c, q.id ∉ (store d).map (fun p => p.id))) →
      (res.map (fun q => q.id)).Nodup →
      (∀ q ∈ res, q.id ∈ sel) →
      ∃ res' sel' rem',
        fillLoop (fun x => .ok (store x)) sampleQ per cats (res, sel, rem) =
          .ok (res', sel', rem') ∧
        res'.length = res.length + Nat.min rem (cats.length * per) ∧
        (res'.map (fun q => q.id)).Nodup := by
  intro cats
  induction cats with
  | nil =>
    intro res sel rem _ _ hres _
    refine ⟨res, sel, rem, rfl, ?_, hres⟩
    simp [Nat.min_def]
  | cons c cs ih =>
    intro res sel rem hnd hcats hres hressel
    rcases List.nodup_cons.1 hnd with ⟨hcn, hcsn⟩
    obtain ⟨hlen_c, hnd_c, hsel_c, hpair_c⟩ := hcats c (List.mem_cons_self _ _)
    by_cases hrem : rem = 0
    · subst hrem
      refine ⟨res, sel, 0, ?_, ?_, hres⟩
      · rfl
      · rw [natMin_zero]
        omega
    · have hfil : (store c).filter (fun q => !sel.contains q.id) = store c := by
        rw [List.filter_eq_self]
        intro q hq
        rw [contains_eq_false_of_not_mem (hsel_c q hq)]
        rfl
      have hstore_ne : (store c).isEmpty = false := by
        cases hsc : store c with
        | nil =>
          rw [hsc] at hlen_c
          simp at hlen_c
          omega
        | cons a l => rfl
      rw [fillLoop_cons_step store sampleQ per c cs res sel rem hrem hfil hstore_ne]
      have hcc_le : Nat.min per rem ≤ (store c).length :=
        le_trans (Nat.min_le_left _ _) hlen_c
      set CH := (if Nat.min per rem < (store c).length then
        sampleQ (store c) (Nat.min per rem) else store c) with hCH
      have hch_len : CH.length = Nat.min per rem := by
        rw [hCH]
        split
        · exact (hS (store c) (Nat.min per rem) hcc_le).1
        · rename_i hnot
          omega
      have hch_sub : CH ⊆ store c := by
        rw [hCH]
        split
        · exact (hS (store c) (Nat.min per rem) hcc_le).2.1
        · exact fun x hx => hx
      have hch_nodup : (CH.map (fun q => q.id)).Nodup := by
        rw [hCH]
        split
        · exact nodup_map_id_of_subset (store c) _ hnd_c
            ((hS (store c) (Nat.min per rem) hcc_le).2.2 (List.Nodup.of_map _ hnd_c))
            ((hS (store c) (Nat.min per rem) hcc_le).2.1)
        · exact hnd_c
      have hch_notin_sel : ∀ i ∈ CH.map (fun q => q.id), i ∉ sel := by
        intro i hi
        obtain ⟨p, hp, rfl⟩ := List.mem_map.1 hi
        exact hsel_c p (hch_sub hp)
      have hcats' : ∀ d ∈ cs, per ≤ (store d).length ∧
          ((store d).map (fun q => q.id)).Nodup ∧
          (∀ q ∈ store d, q.id ∉ sel ++ CH.map (fun q => q.id)) ∧
          (∀ e ∈ cs, d ≠ e → ∀ q ∈ store d, q.id ∉ (store e).map (fun p => p.id)) := by
        intro d hd
        obtain ⟨h1, h2, h3, h4⟩ := hcats d (List.mem_cons_of_mem _ hd)
        refine ⟨h1, h2, ?_, ?_⟩
        · intro q hq
          rw [List.mem_append]
          push_neg
          refine ⟨h3 q hq, ?_⟩
          intro hqc
          obtain ⟨p, hp, hpq⟩ := List.mem_map.1 hqc
          have hdc : c ≠ d := fun he => hcn (he ▸ hd)
          have := hpair_c d (List.mem_cons_of_mem _ hd) hdc p (hch_sub hp)
          exact this (hpq ▸ List.mem_map_of_mem (fun p => p.id) hq)
        · intro e he hde q hq
          exact h4 e (List.mem_cons_of_mem _ he) hde q hq
      have hres' : ((res ++ CH).map (fun q => q.id)).Nodup := by
        rw [List.map_append, List.nodup_append]
        refine ⟨hres, hch_nodup, ?_⟩
        intro i hi hin
        obtain ⟨p, hp, rfl⟩ := List.mem_map.1 hi
        exact hch_notin_sel p.id hin (hressel p hp)
      have hressel' : ∀ q ∈ res ++ CH, q.id ∈ sel ++ CH.map (fun q => q.id) := by
        intro q hq
        rcases List.mem_append.1 hq with h | h
        · exact List.mem_append.2 (Or.inl (hressel q h))
        · exact List.mem_append.2 (Or.inr (List.mem_map_of_mem _ h))
      obtain ⟨res', sel', rem', heq, hlen', hnd'⟩ :=
        ih (res ++ CH) (sel ++ CH.map (fun q => q.id)) (rem - CH.length)
          hcsn hcats' hres' hressel'
      refine ⟨res', sel', rem', heq, ?_, hnd'⟩
      rw [hlen', List.length_append, hch_len, List.length_cons, Nat.succ_mul]
      simp only [Nat.min_def]
      split_ifs <;> omega

/-- C8 (amended): for a user with no wrong-answer history, personalized
assembly fills `max(1, total/9)` questions from each of the nine
categories with NO distribution of the remainder `total mod 9`: under
per-category availability and globally distinct ids, the returned
sequence has `min(total, 9 * max(1, total/9))` questions — equal to
`total` only when `total < 9` or `9 ∣ total`, and `total - total % 9`
otherwise (e.g. 18 of the requested 20). -/
theorem c8_amended_personalized_even_split (store : Store) (catOrder : List Category)
    (sampleQ : List StoredQuestion → Nat → List StoredQuestion)
    (shuffle : List StoredQuestion → List StoredQuestion) (r : ℚ) (t : Nat)
    (hS : SampleOK sampleQ) (hSh : ShuffleOK shuffle)
    (hcat : catOrder.Perm categoryList)
    (hstore : ∀ c, Nat.max 1 (t / 9) ≤ (store c).length ∧
      ((store c).map (fun q => q.id)).Nodup)
    (hdisj : ∀ c d, c ≠ d → ∀ q ∈ store c, q.id ∉ (store d).map (fun p => p.id)) :
    ∃ l, create_personalized_test (fun c => .ok (store c)) (.ok []) catOrder sampleQ
        shuffle r t = .ok l ∧
      l.length = Nat.min t (9 * Nat.max 1 (t / 9)) := by
  have hc9 : catOrder.length = 9 := by
    rw [hcat.length_eq]
    rfl
  unfold create_personalized_test personalizedCore
  simp only [except_bind_ok, except_pure_bind, keywordFrequency, List.foldl_nil,
    keywordStage, List.length_nil, natMin_zero, List.take_zero, List.map_nil,
    Nat.sub_zero, hc9]
  by_cases ht : 0 < t
  · obtain ⟨res', sel', rem', heq, hlen, hnd⟩ :=
      fillLoop_ok_spec store sampleQ hS (Nat.max 1 (t / 9)) (Nat.le_max_left 1 _)
        catOrder [] [] t (hcat.nodup_iff.2 (by decide))
        (fun c _ => ⟨(hstore c).1, (hstore c).2, fun q _ => List.not_mem_nil _,
          fun d _ hcd q hq => hdisj c d hcd q hq⟩)
        (by simp) (by simp)
    rw [if_pos ht, heq]
    simp only [except_bind_ok]
    refine ⟨dedupTrunc t (shuffle res'), rfl, ?_⟩
    have hperm := hSh res'
    have hnd2 : ((shuffle res').map (fun q => q.id)).Nodup :=
      ((hperm.map (fun q => q.id)).nodup_iff).2 hnd
    have hlen2 : (shuffle res').length = res'.length := hperm.length_eq
    rw [hc9] at hlen
    simp only [List.length_nil, Nat.zero_add] at hlen
    have hminle : Nat.min t (9 * Nat.max 1 (t / 9)) ≤ t := Nat.min_le_left _ _
    unfold dedupTrunc
    rw [dedupTruncGo_eq_self t (shuffle res') [] 0 hnd2
      (fun q _ => List.not_mem_nil _) (by omega)]
    omega
  · have ht0 : t = 0 := by omega
    subst ht0
    rw [if_neg ht]
    refine ⟨dedupTrunc 0 (shuffle []), rfl, ?_⟩
    have hnil : shuffle [] = [] := (hSh []).eq_nil
    rw [hnil, natMin_zero]
    rfl

/-- C8 amended-theorem witness: two questions per table, 20 requested:
the personalized test returns `min 20 (9 * max 1 (20/9)) = 18` questions. -/
theorem c8_amended_witness :
    ∃ l, create_personalized_test
      (fun c => .ok [
        { id := categoryName c ++ "-1".data, question := "q".data, answer := "a".data
          example_ := none, difficulty := 1, keywords := none },
        { id := categoryName c ++ "-2".data, question := "q".data, answer := "a".data
          example_ := none, difficulty := 1, keywords := none }])
      (.ok []) categoryList (fun l k => l.take k) (fun l => l) 0 20 = .ok l ∧
      l.length = Nat.min 20 (9 * Nat.max 1 (20 / 9)) :=
  c8_amended_personalized_even_split
    (fun c => [
        { id := categoryName c ++ "-1".data, question := "q".data, answer := "a".data
          example_ := none, difficulty := 1, keywords := none },
        { id := categoryName c ++ "-2".data, question := "q".data, answer := "a".data
          example_ := none, difficulty := 1, keywords := none }])
    categoryList (fun l k => l.take k) (fun l => l) 0 20
    sampleOK_take shuffleOK_id (List.Perm.refl _) (by decide) (by decide)

/-- C8 counterexample: every table holds 3 questions — enough for the
claimed even split of 20 over 9 categories with the remainder
front-loaded (which takes 3 from the first two categories and 2 from the
rest, 9 × 3 = 27 ≥ 20 available in all) — yet the personalized assembly
of a history-free user returns 18 questions, not the promised 20: the
code takes only `max(1, 20 // 9) = 2` from every category and never
distributes the remainder. -/
theorem c8_counterexample :
    ∃ l, create_personalized_test
      (fun c => .ok [
        { id := categoryName c ++ "-1".data, question := "q".data, answer := "a".data
          example_ := none, difficulty := 1, keywords := none },
        { id := categoryName c ++ "-2".data, question := "q".data, answer := "a".data
          example_ := none, difficulty := 1, keywords := none },
        { id := categoryName c ++ "-3".data, question := "q".data, answer := "a".data
          example_ := none, difficulty := 1, keywords := none }])
      (.ok []) categoryList (fun l k => l.take k) (fun l => l) (1 / 2) 20 = .ok l ∧
      l.length = 18 ∧ l.length ≠ 20 := by
  unfold create_personalized_test personalizedCore
  simp only [except_bind_ok, except_pure_bind, keywordFrequency, List.foldl_nil,
    keywordStage, List.length_nil, natMin_zero, List.take_zero, List.map_nil,
    Nat.sub_zero]
  refine ⟨_, rfl, by decide, by decide⟩
